import Mathlib

/-!
Verification of the fast-jwt signing orchestrator (`src/unnamed/part_000`) and
structural decoder (`src/src/decoder.js`).

JavaScript strings are modelled as their UTF-8 byte sequences (`List Nat`),
JavaScript runtime values as the inductive `JSVal`, thrown `TokenError`s as
`Except TokenError`.  The out-of-scope collaborators (`./crypto`, `./utils`,
`./error`) are modelled from the spec where the claims need them; each such
definition is marked `Modelled from the spec:`.
-/

set_option maxHeartbeats 1000000

namespace FastJwt

/-- Byte string of an ASCII Lean string literal.  JS strings are modelled as
their UTF-8 byte sequences; all literals appearing in the source are ASCII. -/
def ascii (s : String) : List Nat := s.data.map Char.toNat

/-- JavaScript runtime values, as far as the signer and the decoder inspect
them.  `str`/`buf` carry the byte content of a string / `Buffer`; `fn` is an
opaque function value (the key resolver). -/
inductive JSVal where
  | undefined
  | null
  | bool (b : Bool)
  | num (n : Int)
  | str (bytes : List Nat)
  | buf (bytes : List Nat)
  | arr (elems : List JSVal)
  | obj (fields : List (List Nat × JSVal))
  | fn
deriving Repr

/-- JS truthiness of the modelled values (`if (v)`).  `NaN` never arises in the
modelled paths. -/
def jsTruthy : JSVal → Bool
  | .undefined => false
  | .null => false
  | .bool b => b
  | .num n => n != 0
  | .str s => !s.isEmpty
  | .buf _ => true
  | .arr _ => true
  | .obj _ => true
  | .fn => true

/-- First-match field lookup of a JS object's property list; JS objects have
unique keys, absent keys read as `undefined`. -/
def objGet : List (List Nat × JSVal) → List Nat → JSVal
  | [], _ => .undefined
  | (k', v') :: rest, k => if k' = k then v' else objGet rest k

/-- Property write: updates the first field with the key in place (JS keeps the
original insertion position), appends otherwise.  This is the semantics of both
a repeated key in an object literal / spread and of `Object.assign`. -/
def objSet : List (List Nat × JSVal) → List Nat → JSVal → List (List Nat × JSVal)
  | [], k, v => [(k, v)]
  | (k', v') :: rest, k, v => if k' = k then (k', v) :: rest else (k', v') :: objSet rest k v

/-- `{...target, ...src}` / `Object.assign(target, src)` on property lists. -/
def objAssign (target src : List (List Nat × JSVal)) : List (List Nat × JSVal) :=
  src.foldl (fun acc kv => objSet acc kv.1 kv.2) target

/-- Property read on an arbitrary value: non-objects have no own fields that the
modelled code reads (the code never reads fields off `null` in the claims). -/
def jsField (v : JSVal) (k : List Nat) : JSVal :=
  match v with
  | .obj fs => objGet fs k
  | _ => .undefined

/-! ### base64url codec

`Buffer.toString('base64')` followed by the url-safe replacement (the
`base64UrlMatcher`/`base64UrlReplacer` pair of the out-of-scope crypto module:
drop `=`, `+` to `-`, `/` to `_`) is modelled as a direct unpadded url-safe
encoder; `Buffer.from(s, 'base64')` is Node's lenient decoder, which ignores
characters outside the (combined) alphabets and padding. -/

/-- The base64url alphabet, as byte values. -/
def b64Alphabet : List Nat :=
  ascii "ABCDEFGHIJKLMNOPQRSTUVWXYZabcdefghijklmnopqrstuvwxyz0123456789-_"

/-- Character (byte) for a sextet. -/
def c64 (s : Nat) : Nat := b64Alphabet.getD s 65

/-- Unpadded url-safe base64 encoding of a byte sequence. -/
def b64urlEncode : List Nat → List Nat
  | [] => []
  | [a] => [c64 (a / 4), c64 (a % 4 * 16)]
  | [a, b] => [c64 (a / 4), c64 (a % 4 * 16 + b / 16), c64 (b % 16 * 4)]
  | a :: b :: c :: rest =>
    c64 (a / 4) :: c64 (a % 4 * 16 + b / 16) :: c64 (b % 16 * 4 + c / 64) :: c64 (c % 64) ::
      b64urlEncode rest

/-- Sextet of a base64 character byte; accepts both the standard and the
url-safe alphabet, rejects everything else (Node ignores such bytes). -/
def sextetOfChar (c : Nat) : Option Nat :=
  if 65 ≤ c ∧ c ≤ 90 then some (c - 65)
  else if 97 ≤ c ∧ c ≤ 122 then some (c - 97 + 26)
  else if 48 ≤ c ∧ c ≤ 57 then some (c - 48 + 52)
  else if c = 45 ∨ c = 43 then some 62
  else if c = 95 ∨ c = 47 then some 63
  else none

/-- Byte sequence of a sextet sequence (a trailing lone sextet is dropped, as
Node does). -/
def sextetsToBytes : List Nat → List Nat
  | s1 :: s2 :: s3 :: s4 :: rest =>
    (s1 * 4 + s2 / 16) :: (s2 % 16 * 16 + s3 / 4) :: (s3 % 4 * 64 + s4) :: sextetsToBytes rest
  | [s1, s2] => [s1 * 4 + s2 / 16]
  | [s1, s2, s3] => [s1 * 4 + s2 / 16, s2 % 16 * 16 + s3 / 4]
  | _ => []

/-- Node's lenient base64 decoding: non-alphabet bytes (including `=` and `.`)
are ignored, then sextets are packed into bytes. -/
def b64decode (s : List Nat) : List Nat := sextetsToBytes (s.filterMap sextetOfChar)

/-- `String.prototype.indexOf` for a single character, as an option. -/
def firstIndexOf (c : Nat) : List Nat → Option Nat
  | [] => none
  | x :: rest => if x = c then some 0 else (firstIndexOf c rest).map (· + 1)

/-- `String.prototype.lastIndexOf` for a single character, as an option. -/
def lastIndexOf (c : Nat) : List Nat → Option Nat
  | [] => none
  | x :: rest =>
    match lastIndexOf c rest with
    | some i => some (i + 1)
    | none => if x = c then some 0 else none

/-! ### JSON serialization (`JSON.stringify`)

Only the shapes the signer actually serializes are exercised: objects whose
values are strings, integers, arrays and nested objects; fields with value
`undefined` are skipped, `undefined` inside arrays renders as `null`. -/

/-- Hex digit byte (lowercase letters). -/
def hexDigit (n : Nat) : Nat := if n < 10 then 48 + n else 87 + n

/-- JSON string escaping.  Control characters are rendered in the `\u00xx`
form (the short forms JS uses for a few of them never occur in the modelled
data); quote and backslash are escaped. -/
def escapeBytes : List Nat → List Nat
  | [] => []
  | c :: rest =>
    (if c = 34 then [92, 34]
     else if c = 92 then [92, 92]
     else if c < 32 then [92, 117, 48, 48, hexDigit (c / 16), hexDigit (c % 16)]
     else [c]) ++ escapeBytes rest

/-- A JSON string literal (byte form). -/
def quoteBytes (s : List Nat) : List Nat := 34 :: (escapeBytes s ++ [34])

/-- Decimal rendering of an integer, as bytes. -/
def intBytes (n : Int) : List Nat := ascii (toString n)

mutual

/-- `JSON.stringify`: `none` for values that serialize to nothing (`undefined`
and functions; `Buffer` payloads are converted to strings before ever being
serialized in the modelled code, so their `toJSON` form is not modelled). -/
def jsonStringify : JSVal → Option (List Nat)
  | .undefined => none
  | .fn => none
  | .buf _ => none
  | .null => some (ascii "null")
  | .bool true => some (ascii "true")
  | .bool false => some (ascii "false")
  | .num n => some (intBytes n)
  | .str s => some (quoteBytes s)
  | .arr xs => some (91 :: (List.intercalate (ascii ",") (jsonItemList xs) ++ [93]))
  | .obj fs => some (123 :: (List.intercalate (ascii ",") (jsonFieldList fs) ++ [125]))

/-- Rendered array elements (`undefined` renders as `null`). -/
def jsonItemList : List JSVal → List (List Nat)
  | [] => []
  | v :: rest =>
    (match jsonStringify v with
     | some s => s
     | none => ascii "null") :: jsonItemList rest

/-- Rendered object fields, skipping those whose value serializes to nothing. -/
def jsonFieldList : List (List Nat × JSVal) → List (List Nat)
  | [] => []
  | (k, v) :: rest =>
    match jsonStringify v with
    | none => jsonFieldList rest
    | some sv => (quoteBytes k ++ 58 :: sv) :: jsonFieldList rest

end

/-- Serialized form of a JS object (the signer only ever serializes objects). -/
def jsonStringifyObj (fs : List (List Nat × JSVal)) : List Nat :=
  123 :: (List.intercalate (ascii ",") (jsonFieldList fs) ++ [125])

/-! ### JSON parsing (`JSON.parse`)

A recursive-descent parser over bytes, with fuel for termination.  Fractional
and exponent number forms are rejected (they never occur in tokens produced by
the signer; for the decoder claims only success/failure on concrete inputs
matters). -/

/-- JSON whitespace. -/
def isWs (c : Nat) : Bool := c == 32 || c == 9 || c == 10 || c == 13

/-- Skip leading JSON whitespace. -/
def skipWs (s : List Nat) : List Nat := s.dropWhile isWs

/-- ASCII decimal digit. -/
def isDigit (c : Nat) : Bool := 48 ≤ c && c ≤ 57

/-- Numeric value of a digit string. -/
def digitsToNat (ds : List Nat) : Nat := ds.foldl (fun acc d => acc * 10 + (d - 48)) 0

/-- Hex value of a byte, if it is a hex digit. -/
def hexVal (c : Nat) : Option Nat :=
  if 48 ≤ c ∧ c ≤ 57 then some (c - 48)
  else if 97 ≤ c ∧ c ≤ 102 then some (c - 97 + 10)
  else if 65 ≤ c ∧ c ≤ 70 then some (c - 65 + 10)
  else none

/-- Body of a JSON string literal after the opening quote: returns the decoded
bytes and the input after the closing quote.  `\u` escapes above `0x0100` are
rejected (the byte-string model carries single bytes; such escapes never occur
in the modelled data). -/
def parseStringBody (fuel : Nat) (s : List Nat) : Option (List Nat × List Nat) :=
  match fuel, s with
  | 0, _ => none
  | _, [] => none
  | fuel + 1, c :: rest =>
    if c = 34 then some ([], rest)
    else if c = 92 then
      match rest with
      | 34 :: r => (parseStringBody fuel r).map (fun p => (34 :: p.1, p.2))
      | 92 :: r => (parseStringBody fuel r).map (fun p => (92 :: p.1, p.2))
      | 47 :: r => (parseStringBody fuel r).map (fun p => (47 :: p.1, p.2))
      | 98 :: r => (parseStringBody fuel r).map (fun p => (8 :: p.1, p.2))
      | 102 :: r => (parseStringBody fuel r).map (fun p => (12 :: p.1, p.2))
      | 110 :: r => (parseStringBody fuel r).map (fun p => (10 :: p.1, p.2))
      | 114 :: r => (parseStringBody fuel r).map (fun p => (13 :: p.1, p.2))
      | 116 :: r => (parseStringBody fuel r).map (fun p => (9 :: p.1, p.2))
      | 117 :: h1 :: h2 :: h3 :: h4 :: r =>
        match hexVal h1, hexVal h2, hexVal h3, hexVal h4 with
        | some a, some b, some cc, some d =>
          let code := ((a * 16 + b) * 16 + cc) * 16 + d
          if code < 256 then (parseStringBody fuel r).map (fun p => (code :: p.1, p.2))
          else none
        | _, _, _, _ => none
      | _ => none
    else (parseStringBody fuel rest).map (fun p => (c :: p.1, p.2))

/-- A number token must not be followed by a fraction or exponent marker (such
forms are real JSON but are not modelled; see above). -/
def badNumberFollow (s : List Nat) : Bool :=
  match s with
  | 46 :: _ => true
  | 101 :: _ => true
  | 69 :: _ => true
  | _ => false

mutual

/-- Parse one JSON value; returns the value and the remaining input. -/
def parseValue : Nat → List Nat → Option (JSVal × List Nat)
  | 0, _ => none
  | fuel + 1, s =>
    match skipWs s with
    | [] => none
    | c :: rest =>
      if c = 110 then
        match rest with
        | 117 :: 108 :: 108 :: r => some (.null, r)
        | _ => none
      else if c = 116 then
        match rest with
        | 114 :: 117 :: 101 :: r => some (.bool true, r)
        | _ => none
      else if c = 102 then
        match rest with
        | 97 :: 108 :: 115 :: 101 :: r => some (.bool false, r)
        | _ => none
      else if c = 34 then
        (parseStringBody (rest.length + 1) rest).map (fun p => (.str p.1, p.2))
      else if c = 45 then
        match rest.takeWhile isDigit with
        | [] => none
        | ds =>
          let r := rest.dropWhile isDigit
          if badNumberFollow r then none
          else some (.num (-(digitsToNat ds : Int)), r)
      else if isDigit c then
        let ds := c :: rest.takeWhile isDigit
        let r := rest.dropWhile isDigit
        if badNumberFollow r then none
        else some (.num (digitsToNat ds : Int), r)
      else if c = 91 then
        match skipWs rest with
        | 93 :: r => some (.arr [], r)
        | _ => (parseItems fuel rest).map (fun p => (.arr p.1, p.2))
      else if c = 123 then
        match skipWs rest with
        | 125 :: r => some (.obj [], r)
        | _ => (parseFields fuel rest).map (fun p => (.obj p.1, p.2))
      else none

/-- Parse the elements of a non-empty JSON array, up to and including `]`. -/
def parseItems : Nat → List Nat → Option (List JSVal × List Nat)
  | 0, _ => none
  | fuel + 1, s =>
    match parseValue fuel s with
    | none => none
    | some (v, r) =>
      match skipWs r with
      | 44 :: r2 => (parseItems fuel r2).map (fun p => (v :: p.1, p.2))
      | 93 :: r2 => some ([v], r2)
      | _ => none

/-- Parse the fields of a non-empty JSON object, up to and including the
closing brace. -/
def parseFields : Nat → List Nat → Option (List (List Nat × JSVal) × List Nat)
  | 0, _ => none
  | fuel + 1, s =>
    match skipWs s with
    | 34 :: rest =>
      match parseStringBody (rest.length + 1) rest with
      | none => none
      | some (k, r) =>
        match skipWs r with
        | 58 :: r2 =>
          match parseValue fuel r2 with
          | none => none
          | some (v, r3) =>
            match skipWs r3 with
            | 44 :: r4 => (parseFields fuel r4).map (fun p => ((k, v) :: p.1, p.2))
            | 125 :: r4 => some ([(k, v)], r4)
            | _ => none
        | _ => none
    | _ => none

end

/-- `JSON.parse`: parse one value, then require only whitespace to remain. -/
def jsonParse (s : List Nat) : Option JSVal :=
  match parseValue (s.length + 1) s with
  | some (v, rest) => if (skipWs rest).isEmpty then some v else none
  | none => none

/-! ### Errors

Modelled from the spec: the error type (`./error`, out of scope) supports a
`code` discriminator and a wrap operation that re-tags a lower-level error with
a taxonomy code and message (§7; the original error is preserved as cause in
the code, which the model drops since no claim inspects causes). -/

/-- The `TokenError.codes` taxonomy used by the two source files. -/
inductive ErrCode where
  | invalidOption
  | invalidType
  | invalidKey
  | malformed
  | keyFetchingError
deriving DecidableEq, Repr

/-- A thrown `TokenError`: its code and its human-readable message bytes. -/
structure TokenError where
  code : ErrCode
  message : List Nat
deriving DecidableEq, Repr

/-- Decidable equality of fallible results over decidable components. -/
instance exceptDecEq {e a : Type} [DecidableEq e] [DecidableEq a] :
    DecidableEq (Except e a) := fun x y =>
  match x, y with
  | .ok v, .ok w =>
    if h : v = w then isTrue (by rw [h]) else isFalse (fun hh => h (by injection hh))
  | .error v, .error w =>
    if h : v = w then isTrue (by rw [h]) else isFalse (fun hh => h (by injection hh))
  | .ok _, .error _ => isFalse (fun hh => Except.noConfusion hh)
  | .error _, .ok _ => isFalse (fun hh => Except.noConfusion hh)

/-! ### Decoder (`src/src/decoder.js`) -/

/-- Decoder configuration, fixed at `createDecoder` time. -/
structure DecoderOptions where
  json : Bool
  complete : Bool
deriving DecidableEq, Repr

/-- `createDecoder`: `{ json: true, ...options }` — `json` defaults to true,
`complete` to false (an absent flag is JS `undefined`, hence false in the
boolean positions it is used in). -/
def createDecoder (json : Option Bool) (complete : Option Bool) : DecoderOptions :=
  { json := json.getD true, complete := complete.getD false }

/-- Result shaping of a successful decode (decoder.js lines 33-36). -/
def decodeResult (opts : DecoderOptions) (header payload : JSVal) (t : List Nat) (l : Nat) :
    JSVal :=
  if opts.complete then
    .obj [(ascii "header", header), (ascii "payload", payload),
          (ascii "signature", .str (t.drop (l + 1))), (ascii "input", .str (t.take l))]
  else payload

/-- `header.typ === 'JWT'` (strict equality against a string literal). -/
def isTypJwt (v : JSVal) : Bool :=
  match v with
  | .str s => s = ascii "JWT"
  | _ => false

/-- The decoder's work on the token bytes (decoder.js lines 13-43): structural
split on the first/last `.`, base64 decode + JSON parse of the header, base64
decode (and conditional JSON parse) of the payload, result shaping.  A JSON
failure is wrapped with the `malformed` code and a stage-naming message. -/
def decodeBytes (opts : DecoderOptions) (t : List Nat) : Except TokenError JSVal :=
  match firstIndexOf 46 t, lastIndexOf 46 t with
  | some f, some l =>
    if f ≥ l then .error ⟨.malformed, ascii "The token is malformed."⟩
    else
      match jsonParse (b64decode (t.take f)) with
      | none =>
        .error ⟨.malformed, ascii "The token header is not a valid base64url serialized JSON."⟩
      | some header =>
        let payloadBytes := b64decode ((t.drop (f + 1)).take (l - (f + 1)))
        if opts.json || isTypJwt (jsField header (ascii "typ")) then
          match jsonParse payloadBytes with
          | none =>
            .error
              ⟨.malformed, ascii "The token payload is not a valid base64url serialized JSON."⟩
          | some payload => .ok (decodeResult opts header payload t l)
        else .ok (decodeResult opts header (.str payloadBytes) t l)
  | _, _ => .error ⟨.malformed, ascii "The token is malformed."⟩

/-- `decode`: token type check (string or `Buffer`), then the byte-level
decoding. -/
def decode (opts : DecoderOptions) (token : JSVal) : Except TokenError JSVal :=
  match token with
  | .buf b => decodeBytes opts b
  | .str s => decodeBytes opts s
  | _ => .error ⟨.invalidType, ascii "The token must be a string or a buffer."⟩

/-! ### Signer (`src/unnamed/part_000`) -/

/-- Modelled from the spec: the algorithm-name lists exported by the
out-of-scope crypto module (§3 of the spec enumerates the supported set). -/
def hsAlgorithms : List (List Nat) := [ascii "HS256", ascii "HS384", ascii "HS512"]

/-- Modelled from the spec: EC algorithm names (§3). -/
def esAlgorithms : List (List Nat) := [ascii "ES256", ascii "ES384", ascii "ES512"]

/-- Modelled from the spec: RSA algorithm names, plain and PSS variant (§3). -/
def rsaAlgorithms : List (List Nat) :=
  [ascii "RS256", ascii "RS384", ascii "RS512", ascii "PS256", ascii "PS384", ascii "PS512"]

/-- Modelled from the spec: edwards-curve algorithm names (§3). -/
def edAlgorithms : List (List Nat) := [ascii "EdDSA"]

/-- The `supportedAlgorithms` joined list (part_000 lines 18-20; the sets are
disjoint so the `Set` dedup is the identity). -/
def supportedAlgorithms : List Nat :=
  List.intercalate (ascii ", ")
    (hsAlgorithms ++ esAlgorithms ++ rsaAlgorithms ++ edAlgorithms ++ [ascii "none"])

/-- `checkIsCompatibleAlgorithm` (part_000 lines 22-39): compares the first two
characters of the expected and the actual algorithm name; everything is
accepted for HS, RS/PS require an RS actual, ES/Ed require an exact match. -/
def checkIsCompatibleAlgorithm (expected actual : List Nat) : Except TokenError Unit :=
  let expectedType := expected.take 2
  let actualType := actual.take 2
  let valid : Bool :=
    if expectedType = ascii "RS" ∨ expectedType = ascii "PS" then actualType = ascii "RS"
    else if expectedType = ascii "ES" ∨ expectedType = ascii "Ed" then expectedType = actualType
    else true
  if valid then .ok ()
  else
    .error
      ⟨.invalidKey, ascii "Invalid private key provided for algorithm " ++ expected ++ ascii "."⟩

/-- `prepareKeyOrSecret` (part_000 lines 41-53): a string key becomes a buffer
of its bytes; the Node-12 `createSecretKey`/`createPrivateKey` wrapping is
external crypto and is modelled as the identity on the byte content. -/
def prepareKeyOrSecret (key : JSVal) (_algorithm : Option (List Nat)) : JSVal :=
  match key with
  | .str s => .buf s
  | k => k

/-- The immutable signer configuration captured by `createSigner` and bound
into `sign` (part_000 lines 282-300). -/
structure SignContext where
  key : JSVal
  algorithm : Option (List Nat)
  noTimestamp : Bool
  mutatePayload : Bool
  clockTimestamp : Int
  expiresIn : Option Int
  notBefore : Option Int
  kid : JSVal
  isAsync : Bool
  additionalHeader : JSVal
  fixedPayload : List (List Nat × JSVal)
deriving Repr

/-- JS truthiness of an optional numeric option (`expiresIn ? ... : ...`). -/
def optTruthy : Option Int → Bool
  | some n => n != 0
  | none => false

/-- JS truthiness of the optional algorithm name (`if (algorithm)`). -/
def algTruthy : Option (List Nat) → Bool
  | some a => !a.isEmpty
  | none => false

/-- Payload validation (part_000 lines 74-81): a `Buffer` payload becomes its
string, strings pass through, `typeof` `'object'` values take the structured
path, everything else throws `InvalidType`.  `null` also has `typeof`
`'object'` and passes this check, but the composer then crashes reading
`payload.iat` off it (line 96), so it gets its own shape; an array passes too
and flows through the composer as its index-keyed own properties. -/
inductive PayloadShape where
  | strPayload (bytes : List Nat)
  | objPayload (fields : List (List Nat × JSVal))
  | nullPayload
deriving Repr

/-- `{...arr}` turns an array into index-keyed own properties in ascending
index order; `payload.iat` on an array reads `undefined` (no digit key is
`iat`).  A later `Object.assign` onto the array is represented by the
resulting property list. -/
def indexFields (elems : List JSVal) : List (List Nat × JSVal) :=
  elems.enum.map (fun p => (ascii (toString p.1), p.2))

/-- See `PayloadShape`. -/
def normalizePayload : JSVal → Except TokenError PayloadShape
  | .buf b => .ok (.strPayload b)
  | .str s => .ok (.strPayload s)
  | .obj fs => .ok (.objPayload fs)
  | .null => .ok .nullPayload
  | .arr elems => .ok (.objPayload (indexFields elems))
  | _ => .error ⟨.invalidType, ascii "The payload must be a object, a string or a buffer."⟩

/-- The header object (part_000 lines 84-89): `alg`, `typ` (only for
structured payloads), `kid`, then the spread of the custom header fields
(spreading a non-object adds nothing). -/
def buildHeader (ctx : SignContext) (structured : Bool) : List (List Nat × JSVal) :=
  let base := [(ascii "alg", match ctx.algorithm with | some a => JSVal.str a | none => .undefined),
               (ascii "typ", if structured then JSVal.str (ascii "JWT") else .undefined),
               (ascii "kid", ctx.kid)]
  match ctx.additionalHeader with
  | .obj fs => objAssign base fs
  | _ => base

mutual

/-- JS `ToString`, as `ToPrimitive` produces it for the modelled values:
buffers (typed arrays) and arrays join their elements with `,` (array holes
`undefined`/`null` join as empty), plain objects give `[object Object]`, and a
function value gives its (non-numeric) source text, modelled as `function`. -/
def jsToString : JSVal → List Nat
  | .undefined => ascii "undefined"
  | .null => ascii "null"
  | .bool true => ascii "true"
  | .bool false => ascii "false"
  | .num n => intBytes n
  | .str s => s
  | .buf bs => List.intercalate (ascii ",") (bs.map (fun b => ascii (toString b)))
  | .obj _ => ascii "[object Object]"
  | .fn => ascii "function"
  | .arr xs => List.intercalate (ascii ",") (jsToStringItems xs)

/-- Array elements under `Array.prototype.join`: `undefined` and `null`
render empty, everything else via `jsToString`. -/
def jsToStringItems : List JSVal → List (List Nat)
  | [] => []
  | v :: rest =>
    (match v with
     | .undefined => []
     | .null => []
     | w => jsToString w) :: jsToStringItems rest

end

/-- Trim JS whitespace from both ends, as `ToNumber` does on strings. -/
def trimWs (s : List Nat) : List Nat := ((s.dropWhile isWs).reverse.dropWhile isWs).reverse

/-- JS `ToNumber` on a string: empty (after trimming) is `0`, an optional
sign followed by decimal digits is that integer, everything else is `NaN`
(`none`).  The other numeric string grammars (fractions, exponents, hex,
`Infinity`) are not produced by any modelled value and are not modelled. -/
def strToNumber (s : List Nat) : Option Int :=
  let t := trimWs s
  if t.isEmpty then some 0
  else
    match t with
    | 45 :: ds => if !ds.isEmpty && ds.all isDigit then some (-(digitsToNat ds : Int)) else none
    | 43 :: ds => if !ds.isEmpty && ds.all isDigit then some ((digitsToNat ds : Int)) else none
    | ds => if ds.all isDigit then some ((digitsToNat ds : Int)) else none

/-- JS `ToNumber`, as `payload.iat * 1000` applies it at line 96 (`none` is
`NaN`): `undefined` is `NaN`, `null` is `0`, booleans are `0`/`1`, numbers
are themselves, and strings, buffers, arrays, objects and functions coerce
through their `ToPrimitive` string form. -/
def jsToNumber : JSVal → Option Int
  | .undefined => none
  | .null => some 0
  | .bool b => some (if b then 1 else 0)
  | .num n => some n
  | v => strToNumber (jsToString v)

/-- The timestamp base in milliseconds (part_000 line 96):
`payload.iat * 1000 || clockTimestamp || Date.now()` — a JS truthiness chain:
the product `ToNumber(payload.iat) * 1000` wins when it is truthy (non-zero
and not `NaN`), so a zero product (absent `iat`, `iat = 0`, or a value
coercing to `0`/`NaN`) falls through to the non-zero `clockTimestamp`, then
to the wall clock. -/
def timestampBase (payloadIat : JSVal) (clockTimestamp now : Int) : Int :=
  let fallback := if clockTimestamp ≠ 0 then clockTimestamp else now
  match jsToNumber payloadIat with
  | some n => if n * 1000 ≠ 0 then n * 1000 else fallback
  | none => fallback

/-- The final claim set (part_000 lines 98-104):
`{...payload, ...fixedPayload, iat: ..., exp: ..., nbf: ...}`.  Note that
`fixedPayload` always carries all five keys (possibly with value `undefined`)
and that `Math.floor(x / 1000)` on JS numbers is flooring division. -/
def finalPayloadFields (ctx : SignContext) (fields : List (List Nat × JSVal)) (iatms : Int) :
    List (List Nat × JSVal) :=
  let m1 := objAssign fields ctx.fixedPayload
  let m2 := objSet m1 (ascii "iat")
    (if ctx.noTimestamp then .undefined else .num (Int.fdiv iatms 1000))
  let m3 := objSet m2 (ascii "exp")
    (if optTruthy ctx.expiresIn then .num (Int.fdiv (iatms + ctx.expiresIn.getD 0) 1000)
     else .undefined)
  objSet m3 (ascii "nbf")
    (if optTruthy ctx.notBefore then .num (Int.fdiv (iatms + ctx.notBefore.getD 0) 1000)
     else .undefined)

/-- What a `sign` invocation throws synchronously: a `TokenError` of the
library's taxonomy, or a plain JS runtime exception — reading `payload.iat`
off a `null` payload (line 96) throws a `TypeError`: `null` passes the
`typeof` check at line 79 but crashes the claims composer, and no token is
produced. -/
inductive SignThrow where
  | token (e : TokenError)
  | typeErrorNullIat
deriving DecidableEq, Repr

/-- Immediate-key `sign` (part_000 lines 55-129, the `!callback` path), with
the wall clock and the external signing primitive passed explicitly.  Returns
the token bytes together with the caller's payload object after the call (the
`mutatePayload` write-back is the only side effect).  The signing primitive is
passed as a total function: in immediate-key mode a primitive throw would
propagate to the caller synchronously, a path no claim exercises. -/
def signSync (ctx : SignContext)
    (createSignature : Option (List Nat) → JSVal → List Nat → List Nat)
    (now : Int) (payload : JSVal) : Except SignThrow (List Nat × JSVal) :=
  match normalizePayload payload with
  | .error e => .error (.token e)
  | .ok .nullPayload => .error .typeErrorNullIat
  | .ok (.strPayload s) =>
    let header := buildHeader ctx false
    let encodedPayload := b64urlEncode s
    let encodedHeader := b64urlEncode (jsonStringifyObj header)
    let input := encodedHeader ++ 46 :: encodedPayload
    let signature :=
      if ctx.algorithm = some (ascii "none") then [] else createSignature ctx.algorithm ctx.key input
    .ok (input ++ 46 :: signature, payload)
  | .ok (.objPayload fields) =>
    let iatms := timestampBase (objGet fields (ascii "iat")) ctx.clockTimestamp now
    let fp := finalPayloadFields ctx fields iatms
    let payloadAfter := if ctx.mutatePayload then JSVal.obj (objAssign fields fp) else payload
    let header := buildHeader ctx true
    let encodedPayload := b64urlEncode (jsonStringifyObj fp)
    let encodedHeader := b64urlEncode (jsonStringifyObj header)
    let input := encodedHeader ++ 46 :: encodedPayload
    let signature :=
      if ctx.algorithm = some (ascii "none") then [] else createSignature ctx.algorithm ctx.key input
    .ok (input ++ 46 :: signature, payloadAfter)

/-- The body of the `getAsyncKey` completion callback (part_000 lines 132-173):
everything it passes to the caller's callback, as an `Except`.  `keyResult` is
the outcome of the external key resolution (`getAsyncKey` is the out-of-scope
async adapter; a fetch failure is wrapped with `keyFetchingError`, which is
`TokenError.wrap` modelled from the spec §7).  The signing primitive is
fallible here: the `try`/`catch` around the post-fetch phase (lines 150-170)
catches a primitive failure and hands it to the callback unchanged. -/
def signAsyncAfterFetch (ctx : SignContext)
    (createSignature : Option (List Nat) → JSVal → List Nat → Except TokenError (List Nat))
    (detect : List Nat → Except TokenError (List Nat))
    (header : List (List Nat × JSVal)) (encodedPayload : List Nat)
    (keyResult : Except Unit JSVal) : Except TokenError (List Nat) :=
  match keyResult with
  | .error _ => .error ⟨.keyFetchingError, ascii "Cannot fetch key."⟩
  | .ok k =>
    let currentKey := match k with | .str s => JSVal.buf s | other => other
    match currentKey with
    | .buf keyBytes =>
      (match detect keyBytes with
       | .error e => .error e
       | .ok available =>
         match (if algTruthy ctx.algorithm then
                  match checkIsCompatibleAlgorithm (ctx.algorithm.getD []) available with
                  | .error e => .error e
                  | .ok _ => .ok (ctx.algorithm.getD [])
                else .ok available : Except TokenError (List Nat)) with
         | .error e => .error e
         | .ok algorithm =>
           let header := if algTruthy ctx.algorithm then header
             else objSet header (ascii "alg") (.str available)
           let preparedKey := prepareKeyOrSecret (.buf keyBytes) (some algorithm)
           let encodedHeader := b64urlEncode (jsonStringifyObj header)
           let input := encodedHeader ++ 46 :: encodedPayload
           match createSignature (some algorithm) preparedKey input with
           | .error e => .error e
           | .ok sig => .ok (input ++ 46 :: sig))
    | _ =>
      .error
        ⟨.keyFetchingError,
          ascii
            "The key returned from the callback must be a string or a buffer containing a secret or a private key."⟩

/-- Deferred-key `sign` (part_000 lines 55-176 with `isAsync`): the outer
`Except` is what the call itself throws synchronously, before the suspension
point; the inner `Except` is what arrives on the completion channel
(callback/promise).  The payload write-back happens synchronously, so the
payload-after value sits in the outer layer. -/
def signAsync (ctx : SignContext)
    (createSignature : Option (List Nat) → JSVal → List Nat → Except TokenError (List Nat))
    (detect : List Nat → Except TokenError (List Nat))
    (now : Int) (payload : JSVal) (keyResult : Except Unit JSVal) :
    Except SignThrow (JSVal × Except TokenError (List Nat)) :=
  match normalizePayload payload with
  | .error e => .error (.token e)
  | .ok .nullPayload => .error .typeErrorNullIat
  | .ok (.strPayload s) =>
    let header := buildHeader ctx false
    .ok (payload, signAsyncAfterFetch ctx createSignature detect header (b64urlEncode s) keyResult)
  | .ok (.objPayload fields) =>
    let iatms := timestampBase (objGet fields (ascii "iat")) ctx.clockTimestamp now
    let fp := finalPayloadFields ctx fields iatms
    let payloadAfter := if ctx.mutatePayload then JSVal.obj (objAssign fields fp) else payload
    let header := buildHeader ctx true
    .ok (payloadAfter,
      signAsyncAfterFetch ctx createSignature detect header
        (b64urlEncode (jsonStringifyObj fp)) keyResult)

/-- The `createSigner` option bag (part_000 lines 179-194); absent options are
`undefined`.  The numeric options are modelled as optional numbers, so the
`typeof !== 'number'` half of their validation cannot fire in the model. -/
structure SignerOptions where
  key : JSVal := .undefined
  algorithm : Option (List Nat) := none
  noTimestamp : Bool := false
  mutatePayload : Bool := false
  clockTimestamp : Option Int := none
  expiresIn : Option Int := none
  notBefore : Option Int := none
  jti : JSVal := .undefined
  aud : JSVal := .undefined
  iss : JSVal := .undefined
  sub : JSVal := .undefined
  nonce : JSVal := .undefined
  kid : JSVal := .undefined
  header : JSVal := .undefined
deriving Repr

/-- `typeof v === 'string'`. -/
def isStr (v : JSVal) : Bool := match v with | .str _ => true | _ => false

/-- `v instanceof Buffer`. -/
def isBuf (v : JSVal) : Bool := match v with | .buf _ => true | _ => false

/-- `typeof v === 'function'`. -/
def isFn (v : JSVal) : Bool := match v with | .fn => true | _ => false

/-- `Array.isArray(v)`. -/
def isArr (v : JSVal) : Bool := match v with | .arr _ => true | _ => false

/-- `typeof v === 'object'` (true for objects, arrays, buffers and `null`). -/
def isObjTypeof (v : JSVal) : Bool :=
  match v with | .obj _ => true | .arr _ => true | .buf _ => true | .null => true | _ => false

/-- The byte content of a string or buffer key (used for detection). -/
def keyBytesOf : JSVal → List Nat
  | .str s => s
  | .buf b => b
  | _ => []

/-- The key detection and compatibility step of `createSigner` (part_000 lines
228-239): for a truthy non-function key, classify it; verify a declared
algorithm against the classification, or adopt the classification; then
normalize the key.  Yields the possibly-updated `(algorithm, key)` pair. -/
def resolveKeyAlgorithm (detect : List Nat → Except TokenError (List Nat))
    (algorithm : Option (List Nat)) (key : JSVal) :
    Except TokenError (Option (List Nat) × JSVal) :=
  if jsTruthy key ∧ ¬ isFn key then
    match detect (keyBytesOf key) with
    | .error e => .error e
    | .ok available =>
      if algTruthy algorithm then
        match checkIsCompatibleAlgorithm (algorithm.getD []) available with
        | .error e => .error e
        | .ok _ => .ok (algorithm, prepareKeyOrSecret key algorithm)
      else .ok (some available, prepareKeyOrSecret key (some available))
  else .ok (algorithm, key)

/-- The tail of `createSigner` after the algorithm/key option checks (part_000
lines 228-303): detection, the remaining option validations in source order,
and the captured context. -/
def createSignerChecked (detect : List Nat → Except TokenError (List Nat))
    (options : SignerOptions) : Except TokenError SignContext :=
  match resolveKeyAlgorithm detect options.algorithm options.key with
  | .error e => .error e
  | .ok (algorithm, key) =>
    if optTruthy options.expiresIn ∧ options.expiresIn.getD 0 < 0 then
      .error ⟨.invalidOption, ascii "The expiresIn option must be a positive number."⟩
    else if optTruthy options.notBefore ∧ options.notBefore.getD 0 < 0 then
      .error ⟨.invalidOption, ascii "The notBefore option must be a positive number."⟩
    else if optTruthy options.clockTimestamp ∧ options.clockTimestamp.getD 0 < 0 then
      .error ⟨.invalidOption, ascii "The clockTimestamp option must be a positive number."⟩
    else if jsTruthy options.jti ∧ ¬ isStr options.jti then
      .error ⟨.invalidOption, ascii "The jti option must be a string."⟩
    else if jsTruthy options.aud ∧ ¬ isStr options.aud ∧ ¬ isArr options.aud then
      .error ⟨.invalidOption, ascii "The aud option must be a string or an array of strings."⟩
    else if jsTruthy options.iss ∧ ¬ isStr options.iss then
      .error ⟨.invalidOption, ascii "The iss option must be a string."⟩
    else if jsTruthy options.sub ∧ ¬ isStr options.sub then
      .error ⟨.invalidOption, ascii "The sub option must be a string."⟩
    else if jsTruthy options.nonce ∧ ¬ isStr options.nonce then
      .error ⟨.invalidOption, ascii "The nonce option must be a string."⟩
    else if jsTruthy options.kid ∧ ¬ isStr options.kid then
      .error ⟨.invalidOption, ascii "The kid option must be a string."⟩
    else if jsTruthy options.header ∧ ¬ isObjTypeof options.header then
      .error ⟨.invalidOption, ascii "The header option must be a object."⟩
    else
      .ok
        { key := key
          algorithm := algorithm
          noTimestamp := options.noTimestamp
          mutatePayload := options.mutatePayload
          clockTimestamp := options.clockTimestamp.getD 0
          expiresIn := options.expiresIn
          notBefore := options.notBefore
          kid := options.kid
          isAsync := isFn options.key
          additionalHeader := options.header
          fixedPayload :=
            [(ascii "jti", options.jti), (ascii "aud", options.aud), (ascii "iss", options.iss),
             (ascii "sub", options.sub), (ascii "nonce", options.nonce)] }

/-- `createSigner` (part_000 lines 178-303): option validation in source
order, key detection and compatibility check for immediate keys, and the
captured context.  `detect` is `detectPrivateKeyAlgorithm` of the out-of-scope
crypto module, passed explicitly. -/
def createSigner (detect : List Nat → Except TokenError (List Nat)) (options : SignerOptions) :
    Except TokenError SignContext :=
  if algTruthy options.algorithm ∧ options.algorithm ≠ some (ascii "none") ∧
      options.algorithm.getD [] ∉ hsAlgorithms ∧ options.algorithm.getD [] ∉ esAlgorithms ∧
      options.algorithm.getD [] ∉ rsaAlgorithms ∧ options.algorithm.getD [] ∉ edAlgorithms then
    .error ⟨.invalidOption,
      ascii "The algorithm option must be one of the following values: " ++ supportedAlgorithms ++
        ascii "."⟩
  else if options.algorithm = some (ascii "none") then
    if jsTruthy options.key then
      .error ⟨.invalidOption,
        ascii "The key option must not be provided when the algorithm option is \"none\"."⟩
    else createSignerChecked detect options
  else if ¬ jsTruthy options.key ∨
      (¬ isStr options.key ∧ ¬ isBuf options.key ∧ ¬ isFn options.key) then
    .error ⟨.invalidOption,
      ascii
        "The key option must be a string, a buffer or a function returning the algorithm secret or private key."⟩
  else createSignerChecked detect options

/-- Modelled from the spec: `detectPrivateKeyAlgorithm` of the out-of-scope
crypto module infers the key's family and reports a canonical algorithm name
for it (§4.1, §3).  Key material is opaque to the core, so the model keys the
classification on a tag at the front of the modelled key bytes; anything
untagged is an HMAC secret. -/
def specDetect (keyBytes : List Nat) : Except TokenError (List Nat) :=
  if (ascii "rsa:").isPrefixOf keyBytes then .ok (ascii "RS256")
  else if (ascii "ec:").isPrefixOf keyBytes then .ok (ascii "ES256")
  else if (ascii "ed:").isPrefixOf keyBytes then .ok (ascii "EdDSA")
  else .ok (ascii "HS256")

/-- The keys that actually appear in serialized JSON output: those whose value
serializes to something. -/
def renderedKeys : List (List Nat × JSVal) → List (List Nat)
  | [] => []
  | (k, v) :: rest => (if (jsonStringify v).isSome then [k] else []) ++ renderedKeys rest

/-! ## Lemmas about the base64url codec -/

theorem c64_lt_ne_dot : ∀ s : Nat, s < 64 → c64 s ≠ 46 := by decide

theorem c64_ne_dot (s : Nat) : c64 s ≠ 46 := by
  rcases Nat.lt_or_ge s 64 with h | h
  · exact c64_lt_ne_dot s h
  · unfold c64
    rw [List.getD_eq_default]
    · decide
    · exact le_trans (by decide : b64Alphabet.length ≤ 64) h

theorem b64urlEncode_not_dot (bs : List Nat) : 46 ∉ b64urlEncode bs := by
  induction bs using b64urlEncode.induct with
  | case1 => simp [b64urlEncode]
  | case2 a =>
    simp only [b64urlEncode, List.mem_cons, List.not_mem_nil, or_false]
    exact not_or.mpr ⟨(c64_ne_dot _).symm, (c64_ne_dot _).symm⟩
  | case3 a b =>
    simp only [b64urlEncode, List.mem_cons, List.not_mem_nil, or_false]
    push_neg
    exact ⟨(c64_ne_dot _).symm, (c64_ne_dot _).symm, (c64_ne_dot _).symm⟩
  | case4 a b c rest ih =>
    simp only [b64urlEncode, List.mem_cons]
    push_neg
    exact ⟨(c64_ne_dot _).symm, (c64_ne_dot _).symm, (c64_ne_dot _).symm, (c64_ne_dot _).symm,
      fun h => ih h⟩

theorem sextetOfChar_c64 : ∀ s : Nat, s < 64 → sextetOfChar (c64 s) = some s := by decide

/-- The four sextets emitted for a full three-byte group are in range. -/
theorem sextet_bounds (a b c : Nat) (ha : a < 256) (hb : b < 256) (hc : c < 256) :
    a / 4 < 64 ∧ a % 4 * 16 + b / 16 < 64 ∧ b % 16 * 4 + c / 64 < 64 ∧ c % 64 < 64 := by
  refine ⟨by omega, ?_, ?_, by omega⟩
  · have h1 : a % 4 < 4 := Nat.mod_lt _ (by omega)
    have h2 : b / 16 < 16 := by omega
    omega
  · have h1 : b % 16 < 16 := Nat.mod_lt _ (by omega)
    have h2 : c / 64 < 4 := by omega
    omega

theorem b64_roundtrip (bs : List Nat) (h : ∀ b ∈ bs, b < 256) :
    b64decode (b64urlEncode bs) = bs := by
  unfold b64decode
  induction bs using b64urlEncode.induct with
  | case1 => simp [b64urlEncode, sextetsToBytes]
  | case2 a =>
    have ha : a < 256 := h a (by simp)
    have h1 : a / 4 < 64 := by omega
    have h2 : a % 4 * 16 < 64 := by have := Nat.mod_lt a (show 0 < 4 by omega); omega
    simp only [b64urlEncode, List.filterMap, sextetOfChar_c64 _ h1, sextetOfChar_c64 _ h2,
      sextetsToBytes, List.cons.injEq]
    exact ⟨by omega, trivial⟩
  | case3 a b =>
    have ha : a < 256 := h a (by simp)
    have hb : b < 256 := h b (by simp)
    have h1 : a / 4 < 64 := by omega
    have h2 : a % 4 * 16 + b / 16 < 64 := by
      have := Nat.mod_lt a (show 0 < 4 by omega); omega
    have h3 : b % 16 * 4 < 64 := by have := Nat.mod_lt b (show 0 < 16 by omega); omega
    simp only [b64urlEncode, List.filterMap, sextetOfChar_c64 _ h1, sextetOfChar_c64 _ h2,
      sextetOfChar_c64 _ h3, sextetsToBytes, List.cons.injEq]
    exact ⟨by omega, by omega, trivial⟩
  | case4 a b c rest ih =>
    have ha : a < 256 := h a (by simp)
    have hb : b < 256 := h b (by simp)
    have hc : c < 256 := h c (by simp)
    obtain ⟨h1, h2, h3, h4⟩ := sextet_bounds a b c ha hb hc
    have hrest : ∀ x ∈ rest, x < 256 := fun x hx => h x (by simp [hx])
    simp only [b64urlEncode, List.filterMap, sextetOfChar_c64 _ h1, sextetOfChar_c64 _ h2,
      sextetOfChar_c64 _ h3, sextetOfChar_c64 _ h4, sextetsToBytes, List.cons.injEq]
    exact ⟨by omega, by omega, by omega, ih hrest⟩

/-! ## Lemmas about indexOf / lastIndexOf -/

theorem firstIndexOf_append_cons (xs ys : List Nat) (h : 46 ∉ xs) :
    firstIndexOf 46 (xs ++ 46 :: ys) = some xs.length := by
  induction xs with
  | nil => simp [firstIndexOf]
  | cons x rest ih =>
    have hx : x ≠ 46 := fun hx => h (by simp [hx])
    have hr : 46 ∉ rest := fun hr => h (by simp [hr])
    simp [firstIndexOf, hx, ih hr]

theorem lastIndexOf_eq_none (c : Nat) (xs : List Nat) (h : c ∉ xs) :
    lastIndexOf c xs = none := by
  induction xs with
  | nil => rfl
  | cons x rest ih =>
    have hx : x ≠ c := fun hx => h (by simp [hx])
    have hr : c ∉ rest := fun hr => h (by simp [hr])
    simp [lastIndexOf, ih hr, hx]

theorem lastIndexOf_append_cons (xs ys : List Nat) (h : 46 ∉ ys) :
    lastIndexOf 46 (xs ++ 46 :: ys) = some xs.length := by
  induction xs with
  | nil => simp [lastIndexOf, lastIndexOf_eq_none 46 ys h]
  | cons x rest ih => simp [lastIndexOf, ih]

/-! ## Lemmas about JS object property lists -/

theorem objGet_objSet_self (fs : List (List Nat × JSVal)) (k : List Nat) (v : JSVal) :
    objGet (objSet fs k v) k = v := by
  induction fs with
  | nil => simp [objSet, objGet]
  | cons kv rest ih =>
    by_cases h : kv.1 = k
    · simp [objSet, objGet, h]
    · simp [objSet, objGet, h, ih]

theorem objGet_objSet_ne (fs : List (List Nat × JSVal)) (k k' : List Nat) (v : JSVal)
    (h : k' ≠ k) : objGet (objSet fs k v) k' = objGet fs k' := by
  induction fs with
  | nil => simp [objSet, objGet, Ne.symm h]
  | cons kv rest ih =>
    by_cases hk : kv.1 = k
    · subst hk
      simp [objSet, objGet, Ne.symm h]
    · simp [objSet, objGet, hk, ih]

theorem objGet_objAssign_not_mem (t src : List (List Nat × JSVal)) (k : List Nat)
    (h : k ∉ src.map Prod.fst) : objGet (objAssign t src) k = objGet t k := by
  induction src generalizing t with
  | nil => rfl
  | cons kv rest ih =>
    have h1 : k ≠ kv.1 := fun hh => h (by simp [hh])
    have h2 : k ∉ rest.map Prod.fst := fun hh => h (by simp [hh])
    show objGet (objAssign (objSet t kv.1 kv.2) rest) k = objGet t k
    rw [ih _ h2, objGet_objSet_ne _ _ _ _ h1]

theorem objGet_objAssign_mem (t src : List (List Nat × JSVal)) (k : List Nat)
    (hnd : (src.map Prod.fst).Nodup) (h : k ∈ src.map Prod.fst) :
    objGet (objAssign t src) k = objGet src k := by
  induction src generalizing t with
  | nil => simp at h
  | cons kv rest ih =>
    simp only [List.map_cons] at hnd
    obtain ⟨hk1, hknd⟩ := List.nodup_cons.mp hnd
    show objGet (objAssign (objSet t kv.1 kv.2) rest) k = objGet (kv :: rest) k
    by_cases hk : kv.1 = k
    · subst hk
      rw [objGet_objAssign_not_mem _ _ _ hk1, objGet_objSet_self]
      simp [objGet]
    · have hmem : k ∈ rest.map Prod.fst := by
        simp only [List.map_cons, List.mem_cons] at h
        rcases h with h | h
        · exact absurd h.symm hk
        · exact h
      rw [ih _ hknd hmem]
      simp [objGet, hk]

theorem renderedKeys_subset (fs : List (List Nat × JSVal)) : renderedKeys fs ⊆ fs.map Prod.fst := by
  induction fs with
  | nil => simp [renderedKeys]
  | cons kv rest ih =>
    intro x hx
    simp only [renderedKeys, List.mem_append] at hx
    simp only [List.map_cons, List.mem_cons]
    rcases hx with hx | hx
    · by_cases hj : (jsonStringify kv.2).isSome = true
      · rw [if_pos hj] at hx
        left
        simpa using hx
      · rw [if_neg hj] at hx
        simp at hx
    · exact Or.inr (ih hx)

theorem not_mem_renderedKeys (fs : List (List Nat × JSVal)) (k : List Nat)
    (hnd : (fs.map Prod.fst).Nodup) (h : objGet fs k = .undefined) : k ∉ renderedKeys fs := by
  induction fs with
  | nil => simp [renderedKeys]
  | cons kv rest ih =>
    simp only [List.map_cons] at hnd
    obtain ⟨hk1, hknd⟩ := List.nodup_cons.mp hnd
    intro hmem
    simp only [renderedKeys, List.mem_append] at hmem
    rcases hmem with hmem | hmem
    · by_cases hk : kv.1 = k
      · subst hk
        have hv : kv.2 = .undefined := by simpa [objGet] using h
        rw [hv] at hmem
        simp [jsonStringify] at hmem
      · by_cases hj : (jsonStringify kv.2).isSome = true
        · rw [if_pos hj] at hmem
          have hkk : k = kv.1 := by simpa using hmem
          exact hk hkk.symm
        · rw [if_neg hj] at hmem
          simp at hmem
    · by_cases hk : kv.1 = k
      · exact hk1 (by rw [hk]; exact renderedKeys_subset rest hmem)
      · have h2 : objGet rest k = .undefined := by simpa [objGet, hk] using h
        exact ih hknd h2 hmem

theorem keys_objSet (fs : List (List Nat × JSVal)) (k : List Nat) (v : JSVal) :
    (objSet fs k v).map Prod.fst =
      if k ∈ fs.map Prod.fst then fs.map Prod.fst else fs.map Prod.fst ++ [k] := by
  induction fs with
  | nil => simp [objSet]
  | cons kv rest ih =>
    by_cases hk : kv.1 = k
    · simp [objSet, hk]
    · simp only [objSet, if_neg hk, List.map_cons, ih]
      by_cases hmem : k ∈ rest.map Prod.fst
      · simp [hmem, Ne.symm hk]
      · simp [hmem, Ne.symm hk]

theorem nodup_keys_objSet (fs : List (List Nat × JSVal)) (k : List Nat) (v : JSVal)
    (hnd : (fs.map Prod.fst).Nodup) : ((objSet fs k v).map Prod.fst).Nodup := by
  rw [keys_objSet]
  by_cases hmem : k ∈ fs.map Prod.fst
  · simpa [hmem] using hnd
  · rw [if_neg hmem]
    refine List.Nodup.append hnd (List.nodup_singleton k) ?_
    intro a ha hb
    rw [List.mem_singleton] at hb
    exact hmem (hb ▸ ha)

theorem nodup_keys_objAssign (t src : List (List Nat × JSVal))
    (hnd : (t.map Prod.fst).Nodup) : ((objAssign t src).map Prod.fst).Nodup := by
  induction src generalizing t with
  | nil => exact hnd
  | cons kv rest ih => exact ih _ (nodup_keys_objSet t kv.1 kv.2 hnd)

theorem mem_keys_objSet_self (fs : List (List Nat × JSVal)) (k : List Nat) (v : JSVal) :
    k ∈ (objSet fs k v).map Prod.fst := by
  rw [keys_objSet]
  by_cases hmem : k ∈ fs.map Prod.fst
  · simp only [if_pos hmem]
    exact hmem
  · simp [hmem]

theorem subset_keys_objSet (fs : List (List Nat × JSVal)) (k : List Nat) (v : JSVal) :
    fs.map Prod.fst ⊆ (objSet fs k v).map Prod.fst := by
  rw [keys_objSet]
  by_cases hmem : k ∈ fs.map Prod.fst
  · simp [hmem, List.Subset.refl]
  · intro x hx
    simp [hmem, hx]

theorem firstIndexOf_eq_none_iff (c : Nat) (xs : List Nat) :
    firstIndexOf c xs = none ↔ c ∉ xs := by
  induction xs with
  | nil => simp [firstIndexOf]
  | cons x rest ih =>
    by_cases hx : x = c
    · simp [firstIndexOf, hx]
    · simp [firstIndexOf, hx, ih, Ne.symm hx]

theorem lastIndexOf_eq_none_iff (c : Nat) (xs : List Nat) :
    lastIndexOf c xs = none ↔ c ∉ xs := by
  induction xs with
  | nil => simp [lastIndexOf]
  | cons x rest ih =>
    rcases hr : lastIndexOf c rest with _ | i
    · have : c ∉ rest := ih.mp hr
      by_cases hx : x = c
      · simp [lastIndexOf, hr, hx]
      · simp [lastIndexOf, hr, hx, this, Ne.symm hx]
    · have hcr : c ∈ rest := by
        by_contra hc
        rw [ih.mpr hc] at hr
        exact Option.noConfusion hr
      simp [lastIndexOf, hr, hcr]

/-! ## Claim C6: decoder structural malformedness -/

/-- C6 counterexample: the token `"eA.eA.x"` has its separators present and in
order (first at 2, last at 5), yet decoding fails with a `Malformed`-coded
error (the header segment decodes to `x`, which is not JSON) — so "fails with a
Malformed error exactly when no separator / out of order" is false as stated. -/
theorem c6_malformed_iff_counterexample :
    decode ⟨false, false⟩ (.str (ascii "eA.eA.x")) =
      .error ⟨.malformed, ascii "The token header is not a valid base64url serialized JSON."⟩ ∧
    firstIndexOf 46 (ascii "eA.eA.x") = some 2 ∧
    lastIndexOf 46 (ascii "eA.eA.x") = some 5 ∧
    (⟨.malformed, ascii "The token header is not a valid base64url serialized JSON."⟩ :
        TokenError).code = .malformed :=
  ⟨rfl, rfl, rfl, rfl⟩

/-- C6 (amended): decoding a string token fails with the structural Malformed
error (message `The token is malformed.`) exactly when the token has no
separator or its first separator is not strictly before its last; segment
decode/parse failures are also `Malformed`-coded but carry stage-specific
messages.  In particular `"abc"` fails this way. -/
theorem c6_structural_malformed_iff (opts : DecoderOptions) (t : List Nat) :
    (decode opts (.str t) = .error ⟨.malformed, ascii "The token is malformed."⟩ ↔
      (firstIndexOf 46 t = none ∨
        ∃ f l, firstIndexOf 46 t = some f ∧ lastIndexOf 46 t = some l ∧ f ≥ l)) ∧
    decode opts (.str (ascii "abc")) = .error ⟨.malformed, ascii "The token is malformed."⟩ := by
  constructor
  · show decodeBytes opts t = _ ↔ _
    rcases hf : firstIndexOf 46 t with _ | f
    · have h46 : 46 ∉ t := (firstIndexOf_eq_none_iff 46 t).mp hf
      have hl : lastIndexOf 46 t = none := (lastIndexOf_eq_none_iff 46 t).mpr h46
      unfold decodeBytes
      rw [hf, hl]
      simp
    · rcases hl : lastIndexOf 46 t with _ | l
      · have h46 : 46 ∉ t := (lastIndexOf_eq_none_iff 46 t).mp hl
        rw [(firstIndexOf_eq_none_iff 46 t).mpr h46] at hf
        exact Option.noConfusion hf
      · unfold decodeBytes
        simp only [hf, hl]
        by_cases hge : f ≥ l
        · rw [if_pos hge]
          simp only [eq_self_iff_true, true_iff]
          exact Or.inr ⟨f, l, rfl, rfl, hge⟩
        · rw [if_neg hge]
          have hrhs : ¬ (some f = none ∨
              ∃ f' l', some f = some f' ∧ some l = some l' ∧ f' ≥ l') := by
            rintro (h | ⟨f', l', hf', hl', hge'⟩)
            · exact Option.noConfusion h
            · cases hf'
              cases hl'
              exact hge hge'
          constructor
          · intro hL
            exfalso
            rcases hp : jsonParse (b64decode (t.take f)) with _ | header
            · rw [hp] at hL
              have hne : ascii "The token header is not a valid base64url serialized JSON." ≠
                  ascii "The token is malformed." := by decide
              injection hL with h1
              injection h1 with hc hm
              exact hne hm
            · rw [hp] at hL
              simp only at hL
              by_cases hj : (opts.json || isTypJwt (jsField header (ascii "typ"))) = true
              · rw [if_pos hj] at hL
                rcases hq : jsonParse (b64decode ((t.drop (f + 1)).take (l - (f + 1)))) with _ | p
                · rw [hq] at hL
                  have hne : ascii "The token payload is not a valid base64url serialized JSON." ≠
                      ascii "The token is malformed." := by decide
                  injection hL with h1
                  injection h1 with hc hm
                  exact hne hm
                · rw [hq] at hL
                  exact Except.noConfusion hL
              · rw [if_neg hj] at hL
                exact Except.noConfusion hL
          · intro hR
            exact absurd hR hrhs
  · rfl

/-! ## Shared concrete signer configurations -/

/-- The context `createSigner` produces for `key = "secret"`,
`algorithm = "HS256"` and no other options. -/
def ctxHS : SignContext :=
  { key := .buf (ascii "secret")
    algorithm := some (ascii "HS256")
    noTimestamp := false
    mutatePayload := false
    clockTimestamp := 0
    expiresIn := none
    notBefore := none
    kid := .undefined
    isAsync := false
    additionalHeader := .undefined
    fixedPayload :=
      [(ascii "jti", .undefined), (ascii "aud", .undefined), (ascii "iss", .undefined),
       (ascii "sub", .undefined), (ascii "nonce", .undefined)] }

/-- As `ctxHS` but with `expiresIn = 3600` (the option value is taken verbatim
into the context). -/
def ctxHSExp : SignContext := { ctxHS with expiresIn := some 3600 }

/-- As `ctxHS` but with `clockTimestamp = 5000`. -/
def ctxHSClock : SignContext := { ctxHS with clockTimestamp := 5000 }

/-- The context `createSigner` produces for `algorithm = "none"` and no key. -/
def ctxNone : SignContext := { ctxHS with key := .undefined, algorithm := some (ascii "none") }

/-- The context `createSigner` produces for a key-resolver function and
`algorithm = "ES256"` (deferred-key mode). -/
def ctxAsyncES : SignContext :=
  { ctxHS with key := .fn, algorithm := some (ascii "ES256"), isAsync := true }

/-! ## Decoding a well-formed three-segment token -/

theorem decodeBytes_three_segments (opts : DecoderOptions) (encH encP sig : List Nat)
    (hH : 46 ∉ encH) (_hP : 46 ∉ encP) (hS : 46 ∉ sig) :
    decodeBytes opts (encH ++ 46 :: (encP ++ 46 :: sig)) =
      (match jsonParse (b64decode encH) with
       | none =>
         .error ⟨.malformed, ascii "The token header is not a valid base64url serialized JSON."⟩
       | some header =>
         if opts.json || isTypJwt (jsField header (ascii "typ")) then
           match jsonParse (b64decode encP) with
           | none =>
             .error
               ⟨.malformed, ascii "The token payload is not a valid base64url serialized JSON."⟩
           | some payload =>
             .ok (decodeResult opts header payload (encH ++ 46 :: (encP ++ 46 :: sig))
               (encH.length + 1 + encP.length))
         else
           .ok (decodeResult opts header (.str (b64decode encP)) (encH ++ 46 :: (encP ++ 46 :: sig))
             (encH.length + 1 + encP.length))) := by
  have hf : firstIndexOf 46 (encH ++ 46 :: (encP ++ 46 :: sig)) = some encH.length :=
    firstIndexOf_append_cons encH (encP ++ 46 :: sig) hH
  have hassoc : encH ++ 46 :: (encP ++ 46 :: sig) = ((encH ++ [46]) ++ encP) ++ 46 :: sig := by
    simp
  have hl : lastIndexOf 46 (encH ++ 46 :: (encP ++ 46 :: sig)) =
      some (encH.length + 1 + encP.length) := by
    rw [hassoc, lastIndexOf_append_cons _ _ hS]
    have hlen : (encH ++ [46] ++ encP).length = encH.length + 1 + encP.length := by
      simp only [List.length_append, List.length_cons, List.length_nil]
    rw [hlen]
  have htake : (encH ++ 46 :: (encP ++ 46 :: sig)).take encH.length = encH := by
    have h := List.take_left encH (46 :: (encP ++ 46 :: sig))
    exact h
  have hdrop : (encH ++ 46 :: (encP ++ 46 :: sig)).drop (encH.length + 1) = encP ++ 46 :: sig := by
    have h1 : encH ++ 46 :: (encP ++ 46 :: sig) = (encH ++ [46]) ++ (encP ++ 46 :: sig) := by simp
    rw [h1]
    have h2 : encH.length + 1 = (encH ++ [46]).length := by simp
    rw [h2, List.drop_left]
  have harith : encH.length + 1 + encP.length - (encH.length + 1) = encP.length := by omega
  have hptake : ((encH ++ 46 :: (encP ++ 46 :: sig)).drop (encH.length + 1)).take
      (encH.length + 1 + encP.length - (encH.length + 1)) = encP := by
    rw [hdrop, harith]
    exact List.take_left encP (46 :: sig)
  have hge : ¬ (encH.length ≥ encH.length + 1 + encP.length) := by omega
  unfold decodeBytes
  simp only [hf, hl, if_neg hge, htake, hptake]

/-- The segment after the last separator of `input ++ "."` is empty. -/
theorem trailing_segment_empty (xs : List Nat) :
    ∃ l, lastIndexOf 46 (xs ++ 46 :: ([] : List Nat)) = some l ∧
      (xs ++ 46 :: ([] : List Nat)).drop (l + 1) = [] := by
  refine ⟨xs.length, lastIndexOf_append_cons xs [] (by simp), ?_⟩
  rw [show xs.length + 1 = (xs ++ 46 :: ([] : List Nat)).length by simp, List.drop_length]

/-! ## Claim C5: algorithm "none" -/

/-- C5: constructing a signer with algorithm `"none"` fails with
`InvalidOption` when a (truthy) key is supplied and succeeds without one; and
signing any payload — any value the payload check admits and the composer can
process, i.e. a string, buffer, object or array; a `null` payload crashes the
composer with a TypeError before any token exists — produces a token whose
trailing segment, after the last separator, is the empty string. -/
theorem c5_algorithm_none (k payload : JSVal)
    (csig : Option (List Nat) → JSVal → List Nat → List Nat) (now : Int)
    (hk : jsTruthy k = true)
    (hvalid : ∀ e, normalizePayload payload ≠ .error e)
    (hnn : normalizePayload payload ≠ .ok .nullPayload) :
    createSigner specDetect { algorithm := some (ascii "none"), key := k } =
      .error ⟨.invalidOption,
        ascii "The key option must not be provided when the algorithm option is \"none\"."⟩ ∧
    createSigner specDetect { algorithm := some (ascii "none") } = .ok ctxNone ∧
    ∃ tok payloadAfter, signSync ctxNone csig now payload = .ok (tok, payloadAfter) ∧
      ∃ l, lastIndexOf 46 tok = some l ∧ tok.drop (l + 1) = [] := by
  refine ⟨?_, rfl, ?_⟩
  · simp [createSigner, hk]
  · rcases hn : normalizePayload payload with e | sh
    · exact absurd hn (hvalid e)
    · rcases sh with s | fields | _
      · simp only [signSync, hn]
        exact ⟨_, _, rfl, trailing_segment_empty _⟩
      · simp only [signSync, hn]
        exact ⟨_, _, rfl, trailing_segment_empty _⟩
      · exact absurd hn hnn

/-- Closed witness for `c5_algorithm_none` at `k = "k"`, `payload = {}`. -/
theorem c5_algorithm_none_witness :
    jsTruthy (JSVal.str (ascii "k")) = true ∧
    (createSigner specDetect { algorithm := some (ascii "none"), key := .str (ascii "k") } =
      .error ⟨.invalidOption,
        ascii "The key option must not be provided when the algorithm option is \"none\"."⟩ ∧
    createSigner specDetect { algorithm := some (ascii "none") } = .ok ctxNone ∧
    ∃ tok payloadAfter,
      signSync ctxNone (fun _ _ _ => []) 0 (.obj []) = .ok (tok, payloadAfter) ∧
      ∃ l, lastIndexOf 46 tok = some l ∧ tok.drop (l + 1) = []) :=
  ⟨by decide,
    c5_algorithm_none (.str (ascii "k")) (.obj []) (fun _ _ _ => []) 0 (by decide)
      (fun e h => Except.noConfusion h)
      (fun h => by simp [normalizePayload] at h)⟩

/-! ## Claim C7: string payloads round-trip -/

/-- C7: for every string payload (as its bytes `s`), signing with the HS256
signer attaches no `typ` to the header (the header serializes to exactly
`{"alg":"HS256"}`), uses `base64url(s)` verbatim as payload segment — so no
`iat`/`exp`/`nbf` are added — and decoding the token with `json = false`
returns exactly the original string. -/
theorem c7_string_payload_roundtrip (s : List Nat) (hs : ∀ b ∈ s, b < 256)
    (csig : Option (List Nat) → JSVal → List Nat → List Nat)
    (hcsig : ∀ a k i, 46 ∉ csig a k i) (now : Int) :
    createSigner specDetect { key := .str (ascii "secret"), algorithm := some (ascii "HS256") } =
      .ok ctxHS ∧
    jsonStringifyObj (buildHeader ctxHS false) = ascii "\x7b\"alg\":\"HS256\"\x7d" ∧
    signSync ctxHS csig now (.str s) =
      .ok ((b64urlEncode (ascii "\x7b\"alg\":\"HS256\"\x7d") ++ 46 :: b64urlEncode s) ++
            46 :: csig (some (ascii "HS256")) (.buf (ascii "secret"))
              (b64urlEncode (ascii "\x7b\"alg\":\"HS256\"\x7d") ++ 46 :: b64urlEncode s),
          .str s) ∧
    decode ⟨false, false⟩
        (.str ((b64urlEncode (ascii "\x7b\"alg\":\"HS256\"\x7d") ++ 46 :: b64urlEncode s) ++
          46 :: csig (some (ascii "HS256")) (.buf (ascii "secret"))
            (b64urlEncode (ascii "\x7b\"alg\":\"HS256\"\x7d") ++ 46 :: b64urlEncode s))) =
      .ok (.str s) := by
  refine ⟨rfl, rfl, rfl, ?_⟩
  have hH := b64urlEncode_not_dot (ascii "\x7b\"alg\":\"HS256\"\x7d")
  have hP := b64urlEncode_not_dot s
  have hS := hcsig (some (ascii "HS256")) (.buf (ascii "secret"))
    (b64urlEncode (ascii "\x7b\"alg\":\"HS256\"\x7d") ++ 46 :: b64urlEncode s)
  show decodeBytes ⟨false, false⟩ _ = _
  have hassoc :
      (b64urlEncode (ascii "\x7b\"alg\":\"HS256\"\x7d") ++ 46 :: b64urlEncode s) ++
          46 :: csig (some (ascii "HS256")) (.buf (ascii "secret"))
            (b64urlEncode (ascii "\x7b\"alg\":\"HS256\"\x7d") ++ 46 :: b64urlEncode s) =
        b64urlEncode (ascii "\x7b\"alg\":\"HS256\"\x7d") ++
          46 :: (b64urlEncode s ++
            46 :: csig (some (ascii "HS256")) (.buf (ascii "secret"))
              (b64urlEncode (ascii "\x7b\"alg\":\"HS256\"\x7d") ++ 46 :: b64urlEncode s)) := by
    simp
  rw [hassoc, decodeBytes_three_segments _ _ _ _ hH hP hS]
  have hhdr : jsonParse (b64decode (b64urlEncode (ascii "\x7b\"alg\":\"HS256\"\x7d"))) =
      some (.obj [(ascii "alg", .str (ascii "HS256"))]) := rfl
  simp only [hhdr]
  rw [b64_roundtrip s hs]
  rfl

/-- Closed witness for `c7_string_payload_roundtrip` at `s = "raw payload"`,
a constant dotless signature, and `now = 0`. -/
theorem c7_string_payload_roundtrip_witness :
    (∀ b ∈ ascii "raw payload", b < 256) ∧
    decode ⟨false, false⟩
        (.str ((b64urlEncode (ascii "\x7b\"alg\":\"HS256\"\x7d") ++
            46 :: b64urlEncode (ascii "raw payload")) ++
          46 :: (fun _ _ _ => ascii "SIG") (some (ascii "HS256")) (JSVal.buf (ascii "secret"))
            (b64urlEncode (ascii "\x7b\"alg\":\"HS256\"\x7d") ++
              46 :: b64urlEncode (ascii "raw payload")))) =
      .ok (.str (ascii "raw payload")) :=
  ⟨by decide,
    (c7_string_payload_roundtrip (ascii "raw payload") (by decide) (fun _ _ _ => ascii "SIG")
      (fun a k i => by show 46 ∉ ascii "SIG"; decide) 0).2.2.2⟩

/-! ## Claim C4: algorithm/key-family compatibility -/

/-- Modelled from the spec: the algorithm names the key classifier can report
(one canonical name per family, §4.1/§3; EC keys report the curve's ES name).
-/
def detectedAlgorithms : List (List Nat) :=
  [ascii "HS256", ascii "RS256", ascii "ES256", ascii "ES384", ascii "ES512", ascii "EdDSA"]

/-- C4: RS*/PS* expected algorithms are compatible exactly with an RSA actual
(PS and plain RS interchangeable), ES*/EdDSA require an exact family match,
HS* accepts any actual family; every failure is an `InvalidKey` error whose
message names the expected algorithm; and constructing a signer with
`algorithm = "ES256"` on an RSA key fails with `InvalidKey` at construction,
before any payload is processed. -/
theorem c4_compatibility_matrix (detect : List Nat → Except TokenError (List Nat))
    (keyBytes : List Nat) (hdet : detect keyBytes = .ok (ascii "RS256")) :
    (∀ e ∈ rsaAlgorithms, ∀ a ∈ detectedAlgorithms,
      (checkIsCompatibleAlgorithm e a = .ok () ↔ a.take 2 = ascii "RS")) ∧
    (∀ e ∈ esAlgorithms ++ edAlgorithms, ∀ a ∈ detectedAlgorithms,
      (checkIsCompatibleAlgorithm e a = .ok () ↔ e.take 2 = a.take 2)) ∧
    (∀ e ∈ hsAlgorithms, ∀ a ∈ detectedAlgorithms, checkIsCompatibleAlgorithm e a = .ok ()) ∧
    (∀ e ∈ hsAlgorithms ++ esAlgorithms ++ rsaAlgorithms ++ edAlgorithms,
      ∀ a ∈ detectedAlgorithms,
        checkIsCompatibleAlgorithm e a = .ok () ∨
        checkIsCompatibleAlgorithm e a =
          .error ⟨.invalidKey,
            ascii "Invalid private key provided for algorithm " ++ e ++ ascii "."⟩) ∧
    createSigner detect { key := .buf keyBytes, algorithm := some (ascii "ES256") } =
      .error ⟨.invalidKey, ascii "Invalid private key provided for algorithm ES256."⟩ := by
  refine ⟨by decide, by decide, by decide, by decide, ?_⟩
  unfold createSigner createSignerChecked resolveKeyAlgorithm
  simp only [keyBytesOf, hdet]
  rfl

/-- Closed witness for `c4_compatibility_matrix` with the spec-modelled
classifier and an RSA-tagged key. -/
theorem c4_compatibility_matrix_witness :
    specDetect (ascii "rsa:KEY") = .ok (ascii "RS256") ∧
    createSigner specDetect
        { key := .buf (ascii "rsa:KEY"), algorithm := some (ascii "ES256") } =
      .error ⟨.invalidKey, ascii "Invalid private key provided for algorithm ES256."⟩ :=
  ⟨rfl, (c4_compatibility_matrix specDetect (ascii "rsa:KEY") rfl).2.2.2.2⟩

/-! ## Claim C1: exp/nbf offset arithmetic -/

/-- C1 counterexample: with `expiresIn = 3600` and payload `{iat: 100}` the
millisecond base is `100000`, and the code emits
`exp = floor((100000 + 3600)/1000) = 103` — not
`floor((100000 + 3600*1000)/1000) = 3700` as the claim states, and not
`iat + expiresIn = 3700` either; the encoded claim set is
`{"iat":100,"exp":103}`. -/
theorem c1_expiry_offset_counterexample :
    createSigner specDetect
        { key := .str (ascii "secret"), algorithm := some (ascii "HS256"),
          expiresIn := some 3600 } = .ok ctxHSExp ∧
    timestampBase (objGet [(ascii "iat", JSVal.num 100)] (ascii "iat")) ctxHSExp.clockTimestamp
      999999 = 100000 ∧
    objGet (finalPayloadFields ctxHSExp [(ascii "iat", JSVal.num 100)] 100000) (ascii "exp") =
      .num 103 ∧
    jsonStringifyObj (finalPayloadFields ctxHSExp [(ascii "iat", JSVal.num 100)] 100000) =
      ascii "\x7b\"iat\":100,\"exp\":103\x7d" ∧
    Int.fdiv (100000 + 3600 * 1000) 1000 = 3700 ∧
    (103 : Int) ≠ 3700 ∧ (103 : Int) ≠ 100 + 3600 :=
  ⟨rfl, rfl, rfl, rfl, rfl, by decide, by decide⟩

/-- C1 (amended): when `expiresIn` (resp. `notBefore`) is set — truthy — the
`exp` (resp. `nbf`) claim equals `floor((base + expiresIn)/1000)` (resp. with
`notBefore`): the offsets are added to the millisecond base as milliseconds,
not multiplied by 1000, so decoding yields `exp = iat + expiresIn/1000` only
when the offsets are given in milliseconds. -/
theorem c1_expiry_offset_amended (ctx : SignContext) (fields : List (List Nat × JSVal))
    (iatms : Int) (he : optTruthy ctx.expiresIn = true) (hn : optTruthy ctx.notBefore = true) :
    objGet (finalPayloadFields ctx fields iatms) (ascii "exp") =
      .num (Int.fdiv (iatms + ctx.expiresIn.getD 0) 1000) ∧
    objGet (finalPayloadFields ctx fields iatms) (ascii "nbf") =
      .num (Int.fdiv (iatms + ctx.notBefore.getD 0) 1000) := by
  unfold finalPayloadFields
  constructor
  · rw [objGet_objSet_ne _ _ _ _ (by decide), objGet_objSet_self, if_pos he]
  · rw [objGet_objSet_self, if_pos hn]

/-- Closed witness for `c1_expiry_offset_amended` on a signer with
`expiresIn = 3600000` and `notBefore = 60000` at base `1700000000000`. -/
theorem c1_expiry_offset_amended_witness :
    optTruthy ({ ctxHS with expiresIn := some 3600000, notBefore := some 60000 }
        : SignContext).expiresIn = true ∧
    optTruthy ({ ctxHS with expiresIn := some 3600000, notBefore := some 60000 }
        : SignContext).notBefore = true ∧
    (objGet (finalPayloadFields { ctxHS with expiresIn := some 3600000, notBefore := some 60000 }
        [(ascii "a", JSVal.num 1)] 1700000000000) (ascii "exp") =
      .num (Int.fdiv (1700000000000 + 3600000) 1000) ∧
    objGet (finalPayloadFields { ctxHS with expiresIn := some 3600000, notBefore := some 60000 }
        [(ascii "a", JSVal.num 1)] 1700000000000) (ascii "nbf") =
      .num (Int.fdiv (1700000000000 + 60000) 1000)) :=
  ⟨rfl, rfl,
    c1_expiry_offset_amended { ctxHS with expiresIn := some 3600000, notBefore := some 60000 }
      [(ascii "a", JSVal.num 1)] 1700000000000 rfl rfl⟩

/-! ## Claim C2: the timestamp base chain -/

/-- C2 counterexample: a payload that carries `iat = 0` does not take
precedence over `clockTimestamp`: `0 * 1000` is falsy, so the base is the
configured `clockTimestamp = 5000` and the emitted `iat` claim is `5`, not
`0` as the claim's "payload.iat * 1000 when the payload already carries an
iat" requires. -/
theorem c2_timestamp_base_counterexample :
    createSigner specDetect
        { key := .str (ascii "secret"), algorithm := some (ascii "HS256"),
          clockTimestamp := some 5000 } = .ok ctxHSClock ∧
    objGet [(ascii "iat", JSVal.num 0)] (ascii "iat") = .num 0 ∧
    timestampBase (objGet [(ascii "iat", JSVal.num 0)] (ascii "iat")) ctxHSClock.clockTimestamp
      777777 = 5000 ∧
    objGet (finalPayloadFields ctxHSClock [(ascii "iat", JSVal.num 0)] 5000) (ascii "iat") =
      .num 5 ∧
    (5 : Int) ≠ 0 ∧ (5000 : Int) ≠ 0 * 1000 :=
  ⟨rfl, rfl, rfl, rfl, by decide, by decide⟩

/-- C2 (amended): the millisecond base is `ToNumber(payload.iat) * 1000` when
that product is truthy (non-zero), else the non-zero `clockTimestamp`, else
the wall clock.  A payload `iat` of `0` (or an absent `iat`, whose product is
`NaN`) falls through to `clockTimestamp`; an `iat` with non-zero product —
including JS-coerced values such as `true` (base 1000) and `"5"` (base 5000)
— takes precedence over `clockTimestamp`; and the emitted `iat` claim is
`floor(base/1000)` unless `noTimestamp` is set. -/
theorem c2_timestamp_base_amended (n clockTimestamp now iatms : Int)
    (ctx : SignContext) (fields : List (List Nat × JSVal))
    (hn : n * 1000 ≠ 0) (hc : clockTimestamp ≠ 0)
    (hnt : ctx.noTimestamp = false) :
    timestampBase (.num n) clockTimestamp now = n * 1000 ∧
    timestampBase (.num 0) clockTimestamp now = clockTimestamp ∧
    timestampBase .undefined clockTimestamp now = clockTimestamp ∧
    timestampBase .undefined 0 now = now ∧
    timestampBase (.bool true) clockTimestamp now = 1000 ∧
    timestampBase (.str (ascii "5")) clockTimestamp now = 5000 ∧
    objGet (finalPayloadFields ctx fields iatms) (ascii "iat") =
      .num (Int.fdiv iatms 1000) := by
  refine ⟨?_, ?_, ?_, ?_, rfl, rfl, ?_⟩
  · simp only [timestampBase, jsToNumber]
    rw [if_pos hn]
  · simp only [timestampBase, jsToNumber]
    norm_num [hc]
  · simp only [timestampBase, jsToNumber]
    rw [if_pos hc]
  · simp only [timestampBase, jsToNumber]
    norm_num
  · unfold finalPayloadFields
    rw [objGet_objSet_ne _ _ _ _ (by decide), objGet_objSet_ne _ _ _ _ (by decide),
      objGet_objSet_self]
    simp [hnt]

/-- Closed witness for `c2_timestamp_base_amended` at `n = 7`,
`clockTimestamp = 5000`, `now = 1`, base `100000` on the plain HS256 signer. -/
theorem c2_timestamp_base_amended_witness :
    (7 : Int) * 1000 ≠ 0 ∧ (5000 : Int) ≠ 0 ∧ ctxHS.noTimestamp = false ∧
    (timestampBase (.num 7) 5000 1 = 7 * 1000 ∧
    timestampBase (.num 0) 5000 1 = 5000 ∧
    timestampBase .undefined 5000 1 = 5000 ∧
    timestampBase .undefined 0 1 = 1 ∧
    timestampBase (.bool true) 5000 1 = 1000 ∧
    timestampBase (.str (ascii "5")) 5000 1 = 5000 ∧
    objGet (finalPayloadFields ctxHS [] 100000) (ascii "iat") = .num (Int.fdiv 100000 1000)) :=
  ⟨by decide, by decide, rfl,
    c2_timestamp_base_amended 7 5000 1 100000 ctxHS [] (by decide) (by decide) rfl⟩

/-! ## Claim C3: claim-set precedence and the fixed-default overlay -/

/-- C3 counterexample: a caller payload field `jti = "x"` with no `jti` signer
default is NOT left intact: `fixedPayload` always carries all five default
keys, so the spread overwrites the caller's `jti` with `undefined` and the
serialized claim set is `{"iat":5}` — the caller's `jti` has vanished. -/
theorem c3_unset_default_counterexample :
    createSigner specDetect { key := .str (ascii "secret"), algorithm := some (ascii "HS256") } =
      .ok ctxHS ∧
    objGet [(ascii "jti", JSVal.str (ascii "x"))] (ascii "jti") = .str (ascii "x") ∧
    objGet (finalPayloadFields ctxHS [(ascii "jti", JSVal.str (ascii "x"))] 5000) (ascii "jti") =
      .undefined ∧
    jsonStringifyObj (finalPayloadFields ctxHS [(ascii "jti", JSVal.str (ascii "x"))] 5000) =
      ascii "\x7b\"iat\":5\x7d" ∧
    ascii "jti" ∉
      renderedKeys (finalPayloadFields ctxHS [(ascii "jti", JSVal.str (ascii "x"))] 5000) :=
  ⟨rfl, rfl, rfl, rfl, by decide⟩

/-- C3 (amended): the final claim set is the caller's payload overlaid by ALL
five fixed-claim keys (set defaults with their values; unset defaults
overwrite same-named caller fields with `undefined`, which then disappear from
the encoded payload), overlaid by the computed `iat`/`exp`/`nbf`; caller
fields other than the five default names and the three timing names are left
intact. -/
theorem c3_claim_overlay_amended (ctx : SignContext) (fields : List (List Nat × JSVal))
    (iatms : Int)
    (hfp : ctx.fixedPayload.map Prod.fst =
      [ascii "jti", ascii "aud", ascii "iss", ascii "sub", ascii "nonce"])
    (hnd : (fields.map Prod.fst).Nodup) :
    (∀ k ∈ ctx.fixedPayload.map Prod.fst,
      objGet (finalPayloadFields ctx fields iatms) k = objGet ctx.fixedPayload k) ∧
    (∀ k, k ∉ ctx.fixedPayload.map Prod.fst → k ≠ ascii "iat" → k ≠ ascii "exp" →
      k ≠ ascii "nbf" → objGet (finalPayloadFields ctx fields iatms) k = objGet fields k) ∧
    (∀ k ∈ ctx.fixedPayload.map Prod.fst, objGet ctx.fixedPayload k = .undefined →
      k ∉ renderedKeys (finalPayloadFields ctx fields iatms)) ∧
    objGet (finalPayloadFields ctx fields iatms) (ascii "iat") =
      (if ctx.noTimestamp then .undefined else .num (Int.fdiv iatms 1000)) ∧
    objGet (finalPayloadFields ctx fields iatms) (ascii "exp") =
      (if optTruthy ctx.expiresIn then .num (Int.fdiv (iatms + ctx.expiresIn.getD 0) 1000)
       else .undefined) ∧
    objGet (finalPayloadFields ctx fields iatms) (ascii "nbf") =
      (if optTruthy ctx.notBefore then .num (Int.fdiv (iatms + ctx.notBefore.getD 0) 1000)
       else .undefined) := by
  have hco : ∀ x ∈ [ascii "jti", ascii "aud", ascii "iss", ascii "sub", ascii "nonce"],
      x ≠ ascii "iat" ∧ x ≠ ascii "exp" ∧ x ≠ ascii "nbf" := by decide
  have hfixed : ∀ k ∈ ctx.fixedPayload.map Prod.fst,
      objGet (finalPayloadFields ctx fields iatms) k = objGet ctx.fixedPayload k := by
    intro k hk
    obtain ⟨h1, h2, h3⟩ := hco k (hfp ▸ hk)
    unfold finalPayloadFields
    rw [objGet_objSet_ne _ _ _ _ h3, objGet_objSet_ne _ _ _ _ h2, objGet_objSet_ne _ _ _ _ h1,
      objGet_objAssign_mem _ _ _ (by rw [hfp]; decide) hk]
  have hndfp : ((finalPayloadFields ctx fields iatms).map Prod.fst).Nodup := by
    unfold finalPayloadFields
    exact nodup_keys_objSet _ _ _ (nodup_keys_objSet _ _ _ (nodup_keys_objSet _ _ _
      (nodup_keys_objAssign _ _ hnd)))
  refine ⟨hfixed, ?_, ?_, ?_, ?_, ?_⟩
  · intro k hk h1 h2 h3
    unfold finalPayloadFields
    rw [objGet_objSet_ne _ _ _ _ h3, objGet_objSet_ne _ _ _ _ h2, objGet_objSet_ne _ _ _ _ h1,
      objGet_objAssign_not_mem _ _ _ hk]
  · intro k hk hundef
    exact not_mem_renderedKeys _ _ hndfp ((hfixed k hk).trans hundef)
  · unfold finalPayloadFields
    rw [objGet_objSet_ne _ _ _ _ (by decide), objGet_objSet_ne _ _ _ _ (by decide),
      objGet_objSet_self]
  · unfold finalPayloadFields
    rw [objGet_objSet_ne _ _ _ _ (by decide), objGet_objSet_self]
  · unfold finalPayloadFields
    rw [objGet_objSet_self]

/-- Closed witness for `c3_claim_overlay_amended` on the plain HS256 signer
and payload `{jti: "x", a: 1}`. -/
theorem c3_claim_overlay_amended_witness :
    ctxHS.fixedPayload.map Prod.fst =
      [ascii "jti", ascii "aud", ascii "iss", ascii "sub", ascii "nonce"] ∧
    (([(ascii "jti", JSVal.str (ascii "x")), (ascii "a", JSVal.num 1)].map
      (Prod.fst : List Nat × JSVal → List Nat)).Nodup) ∧
    (∀ k ∈ ctxHS.fixedPayload.map Prod.fst, objGet ctxHS.fixedPayload k = .undefined →
      k ∉ renderedKeys (finalPayloadFields ctxHS
        [(ascii "jti", JSVal.str (ascii "x")), (ascii "a", JSVal.num 1)] 5000)) :=
  ⟨by decide, by decide,
    (c3_claim_overlay_amended ctxHS [(ascii "jti", JSVal.str (ascii "x")), (ascii "a", JSVal.num 1)]
      5000 (by decide) (by decide)).2.2.1⟩

/-! ## Claim C10: unconfigured timing claims are dropped -/

/-- C10: a payload-supplied `exp` (resp. `nbf`) never appears in the encoded
claim set when `expiresIn` (resp. `notBefore`) is not set (falsy), and a
payload-supplied `iat` never appears when `noTimestamp` is set: the composer
overwrites those keys with `undefined`, which the serializer drops. -/
theorem c10_timing_claims_gated (ctx : SignContext) (fields : List (List Nat × JSVal))
    (iatms : Int) (hnd : (fields.map Prod.fst).Nodup) :
    (optTruthy ctx.expiresIn = false →
      ascii "exp" ∉ renderedKeys (finalPayloadFields ctx fields iatms)) ∧
    (optTruthy ctx.notBefore = false →
      ascii "nbf" ∉ renderedKeys (finalPayloadFields ctx fields iatms)) ∧
    (ctx.noTimestamp = true →
      ascii "iat" ∉ renderedKeys (finalPayloadFields ctx fields iatms)) := by
  have hndfp : ((finalPayloadFields ctx fields iatms).map Prod.fst).Nodup := by
    unfold finalPayloadFields
    exact nodup_keys_objSet _ _ _ (nodup_keys_objSet _ _ _ (nodup_keys_objSet _ _ _
      (nodup_keys_objAssign _ _ hnd)))
  refine ⟨?_, ?_, ?_⟩
  · intro h
    refine not_mem_renderedKeys _ _ hndfp ?_
    unfold finalPayloadFields
    rw [objGet_objSet_ne _ _ _ _ (by decide), objGet_objSet_self]
    simp [h]
  · intro h
    refine not_mem_renderedKeys _ _ hndfp ?_
    unfold finalPayloadFields
    rw [objGet_objSet_self]
    simp [h]
  · intro h
    refine not_mem_renderedKeys _ _ hndfp ?_
    unfold finalPayloadFields
    rw [objGet_objSet_ne _ _ _ _ (by decide), objGet_objSet_ne _ _ _ _ (by decide),
      objGet_objSet_self]
    simp [h]

/-- Closed witness for `c10_timing_claims_gated`: the plain HS256 signer (no
`expiresIn`/`notBefore`) with payload `{exp: 9999, nbf: 8888}`. -/
theorem c10_timing_claims_gated_witness :
    (([(ascii "exp", JSVal.num 9999), (ascii "nbf", JSVal.num 8888)].map
      (Prod.fst : List Nat × JSVal → List Nat)).Nodup) ∧
    optTruthy ctxHS.expiresIn = false ∧ optTruthy ctxHS.notBefore = false ∧
    (ascii "exp" ∉ renderedKeys (finalPayloadFields ctxHS
      [(ascii "exp", JSVal.num 9999), (ascii "nbf", JSVal.num 8888)] 5000) ∧
    ascii "nbf" ∉ renderedKeys (finalPayloadFields ctxHS
      [(ascii "exp", JSVal.num 9999), (ascii "nbf", JSVal.num 8888)] 5000)) :=
  ⟨by decide, rfl, rfl,
    (c10_timing_claims_gated ctxHS [(ascii "exp", JSVal.num 9999), (ascii "nbf", JSVal.num 8888)]
      5000 (by decide)).1 rfl,
    (c10_timing_claims_gated ctxHS [(ascii "exp", JSVal.num 9999), (ascii "nbf", JSVal.num 8888)]
      5000 (by decide)).2.1 rfl⟩

/-! ## Claim C8: the mutatePayload frame effect -/

/-- C8: with `mutatePayload` set, the caller's payload object comes back from
signing updated in place with the final claim set (`Object.assign`), including
the computed `iat` when timestamps are on; with it unset, the caller's object
is returned completely unchanged. -/
theorem c8_mutate_payload_frame (ctx : SignContext) (fields : List (List Nat × JSVal))
    (csig : Option (List Nat) → JSVal → List Nat → List Nat) (now : Int)
    (hnd : (fields.map Prod.fst).Nodup) :
    (ctx.mutatePayload = true →
      Except.map Prod.snd (signSync ctx csig now (.obj fields)) =
        .ok (.obj (objAssign fields (finalPayloadFields ctx fields
          (timestampBase (objGet fields (ascii "iat")) ctx.clockTimestamp now))))) ∧
    (ctx.mutatePayload = false →
      Except.map Prod.snd (signSync ctx csig now (.obj fields)) = .ok (.obj fields)) ∧
    (ctx.noTimestamp = false →
      objGet (objAssign fields (finalPayloadFields ctx fields
          (timestampBase (objGet fields (ascii "iat")) ctx.clockTimestamp now))) (ascii "iat") =
        .num (Int.fdiv (timestampBase (objGet fields (ascii "iat")) ctx.clockTimestamp now)
          1000)) := by
  refine ⟨?_, ?_, ?_⟩
  · intro h
    simp only [signSync, normalizePayload, h]
    rfl
  · intro h
    simp only [signSync, normalizePayload, h]
    rfl
  · intro h
    have hndfp : ((finalPayloadFields ctx fields
        (timestampBase (objGet fields (ascii "iat")) ctx.clockTimestamp now)).map
          Prod.fst).Nodup := by
      unfold finalPayloadFields
      exact nodup_keys_objSet _ _ _ (nodup_keys_objSet _ _ _ (nodup_keys_objSet _ _ _
        (nodup_keys_objAssign _ _ hnd)))
    have hmem : ascii "iat" ∈ (finalPayloadFields ctx fields
        (timestampBase (objGet fields (ascii "iat")) ctx.clockTimestamp now)).map Prod.fst := by
      unfold finalPayloadFields
      exact subset_keys_objSet _ _ _ (subset_keys_objSet _ _ _ (mem_keys_objSet_self _ _ _))
    rw [objGet_objAssign_mem _ _ _ hndfp hmem]
    unfold finalPayloadFields
    rw [objGet_objSet_ne _ _ _ _ (by decide), objGet_objSet_ne _ _ _ _ (by decide),
      objGet_objSet_self]
    simp [h]

/-- Closed witness for `c8_mutate_payload_frame`: signer with `mutatePayload`
and the plain signer, payload `{a: 1}`. -/
theorem c8_mutate_payload_frame_witness :
    (([(ascii "a", JSVal.num 1)].map (Prod.fst : List Nat × JSVal → List Nat)).Nodup) ∧
    ({ ctxHS with mutatePayload := true } : SignContext).mutatePayload = true ∧
    ctxHS.mutatePayload = false ∧
    Except.map Prod.snd
        (signSync { ctxHS with mutatePayload := true } (fun _ _ _ => []) 1700000000000
          (.obj [(ascii "a", JSVal.num 1)])) =
      .ok (.obj (objAssign [(ascii "a", JSVal.num 1)]
        (finalPayloadFields { ctxHS with mutatePayload := true } [(ascii "a", JSVal.num 1)]
          (timestampBase (objGet [(ascii "a", JSVal.num 1)] (ascii "iat"))
            ({ ctxHS with mutatePayload := true } : SignContext).clockTimestamp
            1700000000000)))) ∧
    Except.map Prod.snd
        (signSync ctxHS (fun _ _ _ => []) 1700000000000 (.obj [(ascii "a", JSVal.num 1)])) =
      .ok (.obj [(ascii "a", JSVal.num 1)]) :=
  ⟨by decide, rfl, rfl,
    (c8_mutate_payload_frame { ctxHS with mutatePayload := true } [(ascii "a", JSVal.num 1)]
      (fun _ _ _ => []) 1700000000000 (by decide)).1 rfl,
    (c8_mutate_payload_frame ctxHS [(ascii "a", JSVal.num 1)]
      (fun _ _ _ => []) 1700000000000 (by decide)).2.1 rfl⟩

/-! ## Claim C9: the deferred-key error channel -/

/-- C9 counterexample: in deferred-key mode an invalid payload TYPE is thrown
synchronously (the outer `Except` layer, before the suspension point), not
reported through the completion channel — refuting "every per-signing-call
check failure (including payload type validation) is reported through the
completion channel". -/
theorem c9_sync_throw_counterexample :
    createSigner specDetect { key := .fn, algorithm := some (ascii "ES256") } = .ok ctxAsyncES ∧
    signAsync ctxAsyncES (fun _ _ _ => .ok []) specDetect 0 (.num 42)
        (.ok (.str (ascii "secret"))) =
      .error (.token ⟨.invalidType, ascii "The payload must be a object, a string or a buffer."⟩) :=
  ⟨rfl, rfl⟩

/-- C9 (amended): in deferred-key mode a resolved key that is neither a string
nor a buffer fails with `KeyFetchingError` through the completion channel, a
key-fetch failure arrives there as the wrapped `Cannot fetch key.` error, and
the post-fetch failures — key incompatibility and a failure of the signing
primitive itself — are reported through the same channel; the payload TYPE
check, however, throws synchronously before the suspension point (both in
deferred and immediate mode). -/
theorem c9_deferred_error_channel (ctx : SignContext)
    (csig : Option (List Nat) → JSVal → List Nat → Except TokenError (List Nat))
    (detect : List Nat → Except TokenError (List Nat))
    (now : Int) (fields : List (List Nat × JSVal)) (k : JSVal) (kb kb2 : List Nat)
    (avail avail2 : List Nat) (e esig : TokenError) (n : Int)
    (hks : isStr k = false) (hkb : isBuf k = false)
    (hdet : detect kb = .ok avail)
    (halg : algTruthy ctx.algorithm = true)
    (hchk : checkIsCompatibleAlgorithm (ctx.algorithm.getD []) avail = .error e)
    (hdet2 : detect kb2 = .ok avail2)
    (hchk2 : checkIsCompatibleAlgorithm (ctx.algorithm.getD []) avail2 = .ok ())
    (hsig : ∀ a key i, csig a key i = .error esig) :
    (∃ pa, signAsync ctx csig detect now (.obj fields) (.ok k) =
      .ok (pa, .error ⟨.keyFetchingError,
        ascii
          "The key returned from the callback must be a string or a buffer containing a secret or a private key."⟩)) ∧
    (∃ pa, signAsync ctx csig detect now (.obj fields) (.error ()) =
      .ok (pa, .error ⟨.keyFetchingError, ascii "Cannot fetch key."⟩)) ∧
    (∃ pa, signAsync ctx csig detect now (.obj fields) (.ok (.buf kb)) =
      .ok (pa, .error e)) ∧
    (∃ pa, signAsync ctx csig detect now (.obj fields) (.ok (.buf kb2)) =
      .ok (pa, .error esig)) ∧
    signAsync ctx csig detect now (.num n) (.ok k) =
      .error (.token ⟨.invalidType, ascii "The payload must be a object, a string or a buffer."⟩)
    := by
  refine ⟨?_, ?_, ?_, ?_, rfl⟩
  · refine ⟨if ctx.mutatePayload then
        JSVal.obj (objAssign fields (finalPayloadFields ctx fields
          (timestampBase (objGet fields (ascii "iat")) ctx.clockTimestamp now)))
      else JSVal.obj fields, ?_⟩
    cases k with
    | str s => simp [isStr] at hks
    | buf b => simp [isBuf] at hkb
    | undefined => rfl
    | null => rfl
    | bool b => rfl
    | num m => rfl
    | arr xs => rfl
    | obj fs => rfl
    | fn => rfl
  · exact ⟨if ctx.mutatePayload then
        JSVal.obj (objAssign fields (finalPayloadFields ctx fields
          (timestampBase (objGet fields (ascii "iat")) ctx.clockTimestamp now)))
      else JSVal.obj fields, rfl⟩
  · refine ⟨if ctx.mutatePayload then
        JSVal.obj (objAssign fields (finalPayloadFields ctx fields
          (timestampBase (objGet fields (ascii "iat")) ctx.clockTimestamp now)))
      else JSVal.obj fields, ?_⟩
    simp only [signAsync, normalizePayload, signAsyncAfterFetch, hdet, halg, ite_true, hchk]
  · refine ⟨if ctx.mutatePayload then
        JSVal.obj (objAssign fields (finalPayloadFields ctx fields
          (timestampBase (objGet fields (ascii "iat")) ctx.clockTimestamp now)))
      else JSVal.obj fields, ?_⟩
    simp only [signAsync, normalizePayload, signAsyncAfterFetch, hdet2, halg, ite_true, hchk2,
      hsig]

/-- Closed witness for `c9_deferred_error_channel` on the deferred ES256
signer: a numeric resolved key, an RSA-tagged fetched key for the
incompatibility conjunct, an EC-tagged fetched key and an always-failing
signing primitive for the primitive-failure conjunct. -/
theorem c9_deferred_error_channel_witness :
    isStr (JSVal.num 7) = false ∧ isBuf (JSVal.num 7) = false ∧
    specDetect (ascii "rsa:KEY") = .ok (ascii "RS256") ∧
    algTruthy ctxAsyncES.algorithm = true ∧
    checkIsCompatibleAlgorithm (ctxAsyncES.algorithm.getD []) (ascii "RS256") =
      .error ⟨.invalidKey, ascii "Invalid private key provided for algorithm ES256."⟩ ∧
    specDetect (ascii "ec:KEY") = .ok (ascii "ES256") ∧
    checkIsCompatibleAlgorithm (ctxAsyncES.algorithm.getD []) (ascii "ES256") = .ok () ∧
    ((∃ pa, signAsync ctxAsyncES
        (fun _ _ _ => .error ⟨.invalidKey, ascii "signing failed"⟩) specDetect 0 (.obj [])
        (.ok (JSVal.num 7)) =
      .ok (pa, .error ⟨.keyFetchingError,
        ascii
          "The key returned from the callback must be a string or a buffer containing a secret or a private key."⟩)) ∧
    (∃ pa, signAsync ctxAsyncES
        (fun _ _ _ => .error ⟨.invalidKey, ascii "signing failed"⟩) specDetect 0 (.obj [])
        (.error ()) =
      .ok (pa, .error ⟨.keyFetchingError, ascii "Cannot fetch key."⟩)) ∧
    (∃ pa, signAsync ctxAsyncES
        (fun _ _ _ => .error ⟨.invalidKey, ascii "signing failed"⟩) specDetect 0 (.obj [])
        (.ok (.buf (ascii "rsa:KEY"))) =
      .ok (pa, .error ⟨.invalidKey, ascii "Invalid private key provided for algorithm ES256."⟩)) ∧
    (∃ pa, signAsync ctxAsyncES
        (fun _ _ _ => .error ⟨.invalidKey, ascii "signing failed"⟩) specDetect 0 (.obj [])
        (.ok (.buf (ascii "ec:KEY"))) =
      .ok (pa, .error ⟨.invalidKey, ascii "signing failed"⟩)) ∧
    signAsync ctxAsyncES (fun _ _ _ => .error ⟨.invalidKey, ascii "signing failed"⟩) specDetect 0
        (.num 42) (.ok (JSVal.num 7)) =
      .error (.token ⟨.invalidType, ascii "The payload must be a object, a string or a buffer."⟩))
    :=
  ⟨rfl, rfl, rfl, rfl, rfl, rfl, rfl,
    c9_deferred_error_channel ctxAsyncES
      (fun _ _ _ => .error ⟨.invalidKey, ascii "signing failed"⟩) specDetect 0 [] (JSVal.num 7)
      (ascii "rsa:KEY") (ascii "ec:KEY") (ascii "RS256") (ascii "ES256")
      ⟨.invalidKey, ascii "Invalid private key provided for algorithm ES256."⟩
      ⟨.invalidKey, ascii "signing failed"⟩ 42
      rfl rfl rfl rfl rfl rfl rfl (fun _ _ _ => rfl)⟩

end FastJwt
